import Mathlib

/-!
# NFRL (NIST Fingerprint Registration Library): control-point geometry and overlap ROI

A shallow embedding of the registration core of `usnistgov/NFRL`:

* `corresponding_points_pair.cpp` : `CorrespondingPointsPair::distance`
* `points_on_image.cpp`           : the `PointsOnImage(p1, p2)` constructor
* `points_on_images.h`            : `PointsOnImages` (scale factor)
* `overlap_registered_images.cpp` : the `OverlapRegisteredImages(img1, img2)` constructor

Floating-point values (`float`, `double`) are read as real numbers: every
arithmetic operation of the source is the exact real operation, and the
literals of the source are kept digit for digit.
-/

namespace NFRL

/-! ## OpenCV value types -/

/-- The type `cv::Point2f`: a point with floating-point coordinates (read as reals). -/
structure Point2f where
  x : ℝ
  y : ℝ

/-- The type `cv::Point` (`cv::Point2i`): a point with `int` coordinates. -/
structure Point where
  x : ℤ
  y : ℤ

/-- OpenCV `cvRound`: the nearest integer, a tie going to the even neighbour
(the default rounding mode of the conversion instruction it compiles to).
The range of `int` is not modelled. -/
noncomputable def cvRound (v : ℝ) : ℤ :=
  if v - ⌊v⌋ < 1 / 2 then ⌊v⌋
  else if 1 / 2 < v - ⌊v⌋ then ⌊v⌋ + 1
  else if ⌊v⌋ % 2 = 0 then ⌊v⌋ else ⌊v⌋ + 1

/-- OpenCV `Point2f - Point2f`: the coordinate-wise difference. -/
def Point2f.sub (a b : Point2f) : Point2f := ⟨a.x - b.x, a.y - b.y⟩

/-- OpenCV conversion `Point_<float>` to `Point_<int>`: each coordinate goes
through `saturate_cast<int>`, which is `cvRound`. -/
noncomputable def Point2f.toPoint (p : Point2f) : Point := ⟨cvRound p.x, cvRound p.y⟩

/-- OpenCV `Point_<int>::ddot`: the dot product accumulated in `double`. -/
def Point.ddot (a b : Point) : ℝ := (a.x : ℝ) * (b.x : ℝ) + (a.y : ℝ) * (b.y : ℝ)

/-! ## `CorrespondingPointsPair` -/

/-- The class `CorrespondingPointsPair`: one point on the moving image and the
point of the fixed image that corresponds to it. -/
structure CorrespondingPointsPair where
  _movingPt : Point2f
  _fixedPt : Point2f

/-- The method `CorrespondingPointsPair::distance()`:
`cv::Point diff = _movingPt - _fixedPt; return sqrt( diff.ddot(diff) );`
The local `diff` is a `cv::Point`, so the real difference is converted to
integer coordinates before the dot product. -/
noncomputable def CorrespondingPointsPair.distance (c : CorrespondingPointsPair) : ℝ :=
  let diff : Point := (c._movingPt.sub c._fixedPt).toPoint
  Real.sqrt (diff.ddot diff)

/-! ## `PointsOnImage` -/

/-- The class `PointsOnImage`: two points selected on the same image, with the
values its constructor derives from them. -/
structure PointsOnImage where
  _pointOne : Point2f
  _pointTwo : Point2f
  _sideX : ℝ
  _sideY : ℝ
  _slope : ℝ
  segmentLength : ℝ
  angleDegrees : ℝ

/-- The constructor `PointsOnImage::PointsOnImage(cv::Point2f, cv::Point2f)`.
The divisor of the degree conversion is the literal of the source,
`3.141592653589`. Real division by zero is `0` here, where the source gets
an infinity or a NaN: the stored slope of a vertical segment (`_sideX = 0`)
and every derived value of a coincident pair are outside this model. The
angle of a vertical segment is not affected, since both sign tests of the
source need `_sideX` different from zero. -/
noncomputable def PointsOnImage.new (pointOne pointTwo : Point2f) : PointsOnImage :=
  let sideX : ℝ := pointTwo.x - pointOne.x
  let sideY : ℝ := pointTwo.y - pointOne.y
  let slope0 : ℝ := sideY / sideX
  let slope : ℝ := -slope0
  let segmentLength : ℝ := Real.sqrt (sideX ^ 2 + sideY ^ 2)
  let angle0 : ℝ := Real.arccos (sideX / segmentLength) * 180.0 / 3.141592653589
  let angle : ℝ :=
    if sideX > 0.0 ∧ slope < 0 then -angle0
    else if sideX < 0.0 ∧ slope > 0 then -angle0
    else angle0
  { _pointOne := pointOne
    _pointTwo := pointTwo
    _sideX := sideX
    _sideY := sideY
    _slope := slope
    segmentLength := segmentLength
    angleDegrees := angle }

/-- The value the constructor stores for a half turn: `acos(-1)` converted to
degrees with the divisor of the source. With an exact divisor it would be 180. -/
noncomputable def halfTurnDegrees : ℝ := Real.pi * 180.0 / 3.141592653589

/-- A rigid motion of the image plane: the rotation by `theta` about `centre`
(the matrix OpenCV `getRotationMatrix2D` builds for scale 1), followed by the
translation by `(tx, ty)`. -/
noncomputable def rigidMotion (theta : ℝ) (centre : Point2f) (tx ty : ℝ) (p : Point2f) :
    Point2f :=
  let a : ℝ := Real.cos theta
  let b : ℝ := Real.sin theta
  ⟨a * p.x + b * p.y + ((1 - a) * centre.x - b * centre.y) + tx,
   -b * p.x + a * p.y + (b * centre.x + (1 - a) * centre.y) + ty⟩

/-! ## `PointsOnImages` -/

/-- The class `PointsOnImages` (`points_on_images.h`): the same-image pair of
the moving image, the one of the fixed image, and the ratio of their segment
lengths. -/
structure PointsOnImages where
  _pairMoving : PointsOnImage
  _pairFixed : PointsOnImage
  _scaleFactor : ℝ

/-- Modelled from the spec: the body of the constructor
`PointsOnImages::PointsOnImages(PointsOnImage&, PointsOnImage&)`, declared in
`points_on_images.h` and defined in a file that is not available. The spec:
"given one SameImagePointPair per image, `scaleFactor = segmentLength(image A)
/ segmentLength(image B)`", first image over second; the header: "the
constructor calculates the scale factor(sf) where sf is the ratio of the
segments". -/
noncomputable def PointsOnImages.new (pairA pairB : PointsOnImage) : PointsOnImages :=
  { _pairMoving := pairA
    _pairFixed := pairB
    _scaleFactor := pairA.segmentLength / pairB.segmentLength }

/-- Modelled from the spec: the accessor `PointsOnImages::getScaleFactor()`,
declared in `points_on_images.h`; it reports the stored ratio. -/
def PointsOnImages.getScaleFactor (s : PointsOnImages) : ℝ := s._scaleFactor

/-! ## Raster images and the OpenCV functions the overlap engine calls -/

/-- The type `cv::Mat`, for the single-channel 8-bit images (`CV_8UC1`) the
overlap engine works on: `px r c` is the pixel of row `r` and column `c`,
read modulo 256; only the pixels with `r < rows` and `c < cols` belong to the
image. -/
structure Mat where
  rows : Nat
  cols : Nat
  px : Nat → Nat → Nat

/-- The type `cv::Rect`: top-left corner, width and height. -/
structure Rect where
  x : Int
  y : Int
  width : Int
  height : Int
  deriving DecidableEq, Repr

/-- The type `cv::Exception`, with the message `what()` returns. -/
structure CvException where
  what : String
  deriving DecidableEq, Repr

/-- The type `NFRL::Miscue`, the exception of the library, with its message. -/
structure Miscue where
  msg : String
  deriving DecidableEq, Repr

/-- OpenCV `cv::MORPH_RECT`. -/
def MORPH_RECT : Int := 0

/-- OpenCV `cv::IMWRITE_PNG_STRATEGY_DEFAULT`. -/
def IMWRITE_PNG_STRATEGY_DEFAULT : Int := 0

/-- OpenCV `cv::Mat::zeros(rows, cols, CV_8UC1)`. -/
def Mat.zeros (rows cols : Nat) : Mat := ⟨rows, cols, fun _ _ => 0⟩

/-- OpenCV `cv::bitwise_not` on an 8-bit image: every pixel `v` becomes `255 - v`. -/
def bitwise_not (src : Mat) : Mat :=
  ⟨src.rows, src.cols, fun r c => 255 - src.px r c % 256⟩

/-- OpenCV `cv::findNonZero`: the positions (x the column, y the row) of the
non-zero pixels, row by row. -/
def findNonZero (src : Mat) : List Point :=
  (List.range src.rows).flatMap fun r =>
    (List.range src.cols).filterMap fun c =>
      if src.px r c % 256 ≠ 0 then some (⟨(c : Int), (r : Int)⟩ : Point) else none

/-- OpenCV `cv::boundingRect` on a point set: the smallest upright rectangle
that holds every point, `Rect(xmin, ymin, xmax - xmin + 1, ymax - ymin + 1)`;
for an empty point set it is the default `Rect()`, all four fields zero. -/
def boundingRect (pts : List Point) : Rect :=
  match pts with
  | [] => ⟨0, 0, 0, 0⟩
  | p :: rest =>
    let xmin : Int := rest.foldl (fun m q => min m q.x) p.x
    let ymin : Int := rest.foldl (fun m q => min m q.y) p.y
    let xmax : Int := rest.foldl (fun m q => max m q.x) p.x
    let ymax : Int := rest.foldl (fun m q => max m q.y) p.y
    ⟨xmin, ymin, xmax - xmin + 1, ymax - ymin + 1⟩

/-- The raster helpers the constructor calls and whose code is not part of
the sources at hand: the three `CVops` functions of `opencv_procs.h` and
OpenCV `cv::imencode`. Each either returns its output image (or byte stream)
or throws a `cv::Exception`. `sum_two_binary_images` receives the output
buffer the caller has allocated as its third argument. -/
structure CVops where
  binarize_image_via_otsu_threshold : Mat → Nat → Except CvException Mat
  sum_two_binary_images : Mat → Mat → Mat → Except CvException Mat
  image_dilate : Mat → Int → Int → Except CvException Mat
  imencode : String → Mat → List Int → Except CvException (List Nat)

/-- Modelled from the spec: the helpers work pixel by pixel on one canvas
("sum the two binary images pixel-wise", input "two equal-size" images), as
OpenCV thresholding, addition and dilation do, so they keep the image size:
the binary has the size of its source, the sum written into a buffer of the
size of the first binary has that size, and the dilated image has the size
of its source. -/
def CVops.PreservesSize (ops : CVops) : Prop :=
  (∀ src maxval dst, ops.binarize_image_via_otsu_threshold src maxval = .ok dst →
      dst.rows = src.rows ∧ dst.cols = src.cols) ∧
  (∀ a b dst, ops.sum_two_binary_images a b (Mat.zeros a.rows a.cols) = .ok dst →
      dst.rows = a.rows ∧ dst.cols = a.cols) ∧
  (∀ src size type dst, ops.image_dilate src size type = .ok dst →
      dst.rows = src.rows ∧ dst.cols = src.cols)

/-! ## `OverlapRegisteredImages` -/

/-- The struct `OverlapRegisteredImages::DilationKernelParams`. -/
structure DilationKernelParams where
  type : Int
  size : Int
  deriving DecidableEq, Repr

/-- The class `OverlapRegisteredImages`. -/
structure OverlapRegisteredImages where
  _minRect : Rect
  _vecPngBlob : List Nat
  _dilationKernelParams : DilationKernelParams
  deriving DecidableEq, Repr

/-- The member `OverlapRegisteredImages::_max_BINARY_value`. -/
def _max_BINARY_value : Nat := 255

/-- The constructor `OverlapRegisteredImages::OverlapRegisteredImages(cv::Mat, cv::Mat)`:
the `try` block computes the ROI and the PNG blob; a `cv::Exception` is caught
and thrown again as a `Miscue` whose message is the fixed text followed by
`ex.what()`. -/
def OverlapRegisteredImages.new (ops : CVops) (img1 img2 : Mat) :
    Except Miscue OverlapRegisteredImages :=
  let params : DilationKernelParams := { type := MORPH_RECT, size := 1 }
  let tryBlock : Except CvException OverlapRegisteredImages :=
    match ops.binarize_image_via_otsu_threshold img1 _max_BINARY_value with
    | .error ex => .error ex
    | .ok img1Binary =>
    match ops.binarize_image_via_otsu_threshold img2 _max_BINARY_value with
    | .error ex => .error ex
    | .ok img2Binary =>
    match ops.sum_two_binary_images img1Binary img2Binary
        (Mat.zeros img1Binary.rows img1Binary.cols) with
    | .error ex => .error ex
    | .ok sumOverlapOfRegisteredBinaries =>
    let sumBinariesInverted : Mat := bitwise_not sumOverlapOfRegisteredBinaries
    match ops.image_dilate sumBinariesInverted params.size params.type with
    | .error ex => .error ex
    | .ok sumBinariesDilate =>
    match ops.imencode ".png" sumBinariesDilate [IMWRITE_PNG_STRATEGY_DEFAULT] with
    | .error ex => .error ex
    | .ok vecPngBlob =>
    let nonZeroPoints : List Point := findNonZero sumBinariesDilate
    .ok { _minRect := boundingRect nonZeroPoints
          _vecPngBlob := vecPngBlob
          _dilationKernelParams := params }
  match tryBlock with
  | .ok o => .ok o
  | .error ex =>
    .error ⟨"OverlapRegisteredImages, cannot calc image-crop ROI: " ++ ex.what⟩

/-- The method `OverlapRegisteredImages::getRegionOfInterest()`. -/
def OverlapRegisteredImages.getRegionOfInterest (o : OverlapRegisteredImages) : Rect :=
  o._minRect

/-! ## A concrete set of helpers, for running the constructor -/

/-- A stand-in for `binarize_image_via_otsu_threshold` with the threshold
fixed at 127 (OpenCV `THRESH_BINARY`: a pixel above the threshold becomes
`maxval`, any other 0). Otsu's choice of the threshold is not reproduced. -/
def sampleBinarize (src : Mat) (maxval : Nat) : Except CvException Mat :=
  .ok ⟨src.rows, src.cols, fun r c => if 127 < src.px r c % 256 then maxval else 0⟩

/-- A stand-in for `sum_two_binary_images`: the saturating pixel-wise sum,
written into the output buffer. -/
def sampleSum (a b out : Mat) : Except CvException Mat :=
  .ok ⟨out.rows, out.cols, fun r c => min 255 (a.px r c % 256 + b.px r c % 256)⟩

/-- A stand-in for `image_dilate` with a rectangular kernel of
`2 * size + 1` pixels a side, anchored at its centre: each pixel becomes the
maximum over the pixels of the image at most `size` rows and `size` columns
away. -/
def sampleDilate (src : Mat) (size : Int) ( _type : Int) : Except CvException Mat :=
  let k : Nat := size.toNat
  .ok ⟨src.rows, src.cols, fun r c =>
    (((List.range src.rows).filter fun r1 => r1 ≤ r + k ∧ r ≤ r1 + k).flatMap fun r1 =>
      ((List.range src.cols).filter fun c1 => c1 ≤ c + k ∧ c ≤ c1 + k).map fun c1 =>
        src.px r1 c1 % 256).foldl max 0⟩

/-- A stand-in for `cv::imencode`: the pixels row by row, in place of the PNG
encoding; an empty image is refused, as OpenCV does. -/
def sampleImencode ( _ext : String) (img : Mat) ( _params : List Int) :
    Except CvException (List Nat) :=
  if img.rows = 0 ∨ img.cols = 0 then .error ⟨"imencode: empty image"⟩
  else .ok ((List.range img.rows).flatMap fun r =>
    (List.range img.cols).map fun c => img.px r c % 256)

/-- The four stand-ins together. -/
def sampleOps : CVops :=
  { binarize_image_via_otsu_threshold := sampleBinarize
    sum_two_binary_images := sampleSum
    image_dilate := sampleDilate
    imencode := sampleImencode }

/-- A 5 x 4 image (5 columns, 4 rows), white with one dark pixel at row 1, column 1. -/
def sampleImg1 : Mat := ⟨4, 5, fun r c => if r = 1 ∧ c = 1 then 0 else 255⟩

/-- A 5 x 4 image, white with dark pixels at (row 1, column 1) and (row 3, column 4). -/
def sampleImg2 : Mat :=
  ⟨4, 5, fun r c => if (r = 1 ∧ c = 1) ∨ (r = 3 ∧ c = 4) then 0 else 255⟩

/-! ## Further methods of `OverlapRegisteredImages` and `CorrespondingPointsPair` -/

/-- The function `std::to_string(int)`: the decimal digits, after a minus sign
for a negative value. -/
def to_string (v : Int) : String := toString v

/-- OpenCV `cv::MORPH_CROSS`. -/
def MORPH_CROSS : Int := 1

/-- OpenCV `cv::MORPH_ELLIPSE`. -/
def MORPH_ELLIPSE : Int := 2

/-- OpenCV `Rect::tl()`: the top-left corner `Point(x, y)`. -/
def Rect.tl (r : Rect) : Point := ⟨r.x, r.y⟩

/-- OpenCV `Rect::br()`: the bottom-right corner `Point(x + width, y + height)`.
The sums are `int` sums; for a rectangle that lies in an image, whose sides
are `int` values, they stay in the range of `int`. -/
def Rect.br (r : Rect) : Point := ⟨r.x + r.width, r.y + r.height⟩

/-- The method `OverlapRegisteredImages::getRegionOfInterestCorners()`. -/
def OverlapRegisteredImages.getRegionOfInterestCorners (o : OverlapRegisteredImages) :
    List String :=
  let pts0 : List String := []
  let s1 : String := to_string o._minRect.tl.x ++ "," ++ to_string o._minRect.tl.y
  let pts1 : List String := pts0 ++ [s1]
  let s2 : String := to_string o._minRect.br.x ++ "," ++ to_string o._minRect.br.y
  let pts2 : List String := pts1 ++ [s2]
  pts2

/-- The method `DilationKernelParams::to_s()`. -/
def DilationKernelParams.to_s (p : DilationKernelParams) : String :=
  let s3 : String := " * Sum binaries dilation parameters for kernel:\n"
    ++ ("    size: " ++ to_string p.size ++ "\n")
  let s4 : String := "    type: "
  let s4 : String :=
    if p.type = MORPH_RECT then s4 ++ (to_string p.type ++ " = cv::MORPH_RECT\n")
    else if p.type = MORPH_CROSS then s4 ++ (to_string p.type ++ " = cv::MORPH_CROSS\n")
    else if p.type = MORPH_ELLIPSE then s4 ++ (to_string p.type ++ " = cv::MORPH_ELLIPSE\n")
    else s4
  s3 ++ s4

/-- The method `OverlapRegisteredImages::getStructuringElementParams()`. -/
def OverlapRegisteredImages.getStructuringElementParams (o : OverlapRegisteredImages) : String :=
  o._dilationKernelParams.to_s

/-- The method `OverlapRegisteredImages::getPngBlob()`. -/
def OverlapRegisteredImages.getPngBlob (o : OverlapRegisteredImages) : List Nat :=
  o._vecPngBlob

/-- The members of an `OverlapRegisteredImages` before the body of a
constructor runs: `_minRect` is the default `cv::Rect()`, `_vecPngBlob` an
empty vector, and `_dilationKernelParams` has its member initialisers
`type{ cv::MORPH_RECT }` and `size{-1}`. -/
def OverlapRegisteredImages.defaultMembers : OverlapRegisteredImages :=
  { _minRect := ⟨0, 0, 0, 0⟩
    _vecPngBlob := []
    _dilationKernelParams := { type := MORPH_RECT, size := -1 } }

/-- The method `OverlapRegisteredImages::Copy(const OverlapRegisteredImages&)`:
it assigns the size and the type of the dilation kernel and nothing else. -/
def OverlapRegisteredImages.Copy (self aCopy : OverlapRegisteredImages) :
    OverlapRegisteredImages :=
  { self with
    _dilationKernelParams :=
      { size := aCopy._dilationKernelParams.size
        type := aCopy._dilationKernelParams.type } }

/-- The copy constructor
`OverlapRegisteredImages::OverlapRegisteredImages(const OverlapRegisteredImages&)`:
it has no member initialiser list and its body is the call `Copy( aCopy )`. -/
def OverlapRegisteredImages.newCopy (aCopy : OverlapRegisteredImages) :
    OverlapRegisteredImages :=
  OverlapRegisteredImages.defaultMembers.Copy aCopy

/-- The conversion `static_cast<int>(float)`: the value with its fractional
part dropped (rounding towards zero). The range of `int` is not modelled. -/
noncomputable def static_cast_int (v : ℝ) : Int := if 0 ≤ v then ⌊v⌋ else ⌈v⌉

/-- The method `CorrespondingPointsPair::to_s()`. -/
noncomputable def CorrespondingPointsPair.to_s (c : CorrespondingPointsPair) : String :=
  let sout0 : String := ""
  let mx : Int := static_cast_int c._movingPt.x
  let my : Int := static_cast_int c._movingPt.y
  let sx : Int := static_cast_int c._fixedPt.x
  let sy : Int := static_cast_int c._fixedPt.y
  let sout1 : String := sout0 ++ ("(" ++ to_string mx ++ ", " ++ to_string my ++ ")")
  let sout2 : String := sout1 ++ " X "
  let sout3 : String := sout2 ++ ("(" ++ to_string sx ++ ", " ++ to_string sy ++ ")")
  sout3

/-! ## `Registrator` and its registration metadata (`nfrl_lib.h`) -/

/-- The struct `Registrator::Point`: a point with `int` coordinates, for the
registration metadata. -/
structure Registrator.Point where
  x : Int
  y : Int
  deriving DecidableEq, Repr

/-- The method `Registrator::Point::to_s()`: the coordinates as a
comma-separated string. -/
def Registrator.Point.to_s (p : Registrator.Point) : String :=
  let s1 : String := to_string p.x
  let s2 : String := s1 ++ ","
  let s3 : String := s2 ++ to_string p.y
  s3

/-- The method `std::vector<int>::clear()`: the vector afterwards. -/
def vector_clear ( _v : List Int) : List Int := []

/-- The method `std::vector<int>::push_back(value)`: the vector afterwards. -/
def vector_push_back (v : List Int) (value : Int) : List Int := v ++ [value]

/-- The method `Registrator::Point::to_v(std::vector<int>&)`: `center` is the
vector of the caller on entry, the result is that vector on return. -/
def Registrator.Point.to_v (p : Registrator.Point) (center : List Int) : List Int :=
  let center0 : List Int := vector_clear center
  let center1 : List Int := vector_push_back center0 p.x
  let center2 : List Int := vector_push_back center1 p.y
  center2

/-- The struct `Registrator::ImageSize`. -/
structure Registrator.ImageSize where
  width : Int
  height : Int
  deriving DecidableEq, Repr

/-- The enumerator `Registrator::ScaleFactorDirection::img1_to_img2`. -/
def Registrator.img1_to_img2 : Int := 1

/-- The enumerator `Registrator::ScaleFactorDirection::img2_to_img1`, one more
than the enumerator before it. -/
def Registrator.img2_to_img1 : Int := Registrator.img1_to_img2 + 1

/-- The type `std::map<std::string, Point>`: its entries, one per key. -/
abbrev Registrator.PointMap : Type := List (String × Registrator.Point)

/-- The value stored under `key`, if the map has the key. -/
def Registrator.PointMap.find (m : Registrator.PointMap) (key : String) :
    Option Registrator.Point :=
  match m with
  | [] => none
  | (k, v) :: rest => if k = key then some v else Registrator.PointMap.find rest key

/-- The assignment `m[key] = p`: the entry of `key` gets the value `p`; a map
without the key gets a new entry. -/
def Registrator.PointMap.assign (m : Registrator.PointMap) (key : String)
    (p : Registrator.Point) : Registrator.PointMap :=
  match m with
  | [] => [(key, p)]
  | (k, v) :: rest =>
    if k = key then (k, p) :: rest else (k, v) :: Registrator.PointMap.assign rest key p

/-- The read `m[key]`: the value of `key` and the map afterwards; a map without
the key gets an entry with a value-initialised `Point`, both coordinates 0. -/
def Registrator.PointMap.index (m : Registrator.PointMap) (key : String) :
    Registrator.Point × Registrator.PointMap :=
  match m.find key with
  | some p => (p, m)
  | none => (⟨0, 0⟩, m.assign key ⟨0, 0⟩)

/-- The struct `RegistrationMetadata::ControlPoints::EuclideanDistance`. -/
structure Registrator.EuclideanDistance where
  constrained : ℝ
  unconstrained : ℝ

/-- The struct `RegistrationMetadata::ControlPoints`. -/
structure Registrator.ControlPoints where
  point : Registrator.PointMap
  euclideanDistance : Registrator.EuclideanDistance

/-- The method `ControlPoints::getControlPoint(short pointNum)`: the string of
the point, and the control points afterwards (`point[key]` adds an entry to a
map that has no such key). -/
def Registrator.ControlPoints.getControlPoint (cp : Registrator.ControlPoints)
    (pointNum : Int) : String × Registrator.ControlPoints :=
  let key : String := "pt" ++ to_string pointNum
  let r : Registrator.Point × Registrator.PointMap := cp.point.index key
  (r.1.to_s, { cp with point := r.2 })

/-- The method `ControlPoints::setControlPoint(short pointNum, int x, int y)`. -/
def Registrator.ControlPoints.setControlPoint (cp : Registrator.ControlPoints)
    (pointNum : Int) (x y : Int) : Registrator.ControlPoints :=
  let p : Registrator.Point := { x := x, y := y }
  let key : String := "pt" ++ to_string pointNum
  { cp with point := cp.point.assign key p }

/-- The struct `RegistrationMetadata::ScaleFactor`; `direction` holds the value
of the enumeration. -/
structure Registrator.ScaleFactor where
  value : ℝ
  direction : Int

/-- The method `ScaleFactor::getScaleFactorDirection()`. -/
def Registrator.ScaleFactor.getScaleFactorDirection (sf : Registrator.ScaleFactor) : String :=
  if sf.direction = Registrator.img1_to_img2 then "img1/img2"
  else if sf.direction = Registrator.img2_to_img1 then "img2/img1"
  else "undefined"

/-- The struct `RegistrationMetadata::ConvertToGrayscale`. -/
structure Registrator.ConvertToGrayscale where
  img1 : Bool
  img2 : Bool
  deriving DecidableEq, Repr

/-- The struct `Registrator::RegistrationMetadata`. -/
structure Registrator.RegistrationMetadata where
  tx : Int
  ty : Int
  translMatrix : List (List Int)
  angleDiffDegrees : ℝ
  centerRot : Registrator.Point
  rotMatrix : List (List ℝ)
  controlPoints : Registrator.ControlPoints
  scaleFactor : Registrator.ScaleFactor
  srcMovingImgSize : Registrator.ImageSize
  srcFixedImgSize : Registrator.ImageSize
  paddedImgSize : Registrator.ImageSize
  registeredImgSize : Registrator.ImageSize
  convertToGrayscale : Registrator.ConvertToGrayscale
  overlapROICorners : List String

/-- The inner loop of `getTranslationTransform()` from column `j` on, for the
row `row`: `todo` columns are left, `sMatrix` is the string so far. Reading
`row[j]` past the end of the row has no defined result (`none`). The test
`j < tCols-1` is on `size_t` values; it is only reached with `tCols` at least
1, where the subtraction does not wrap. -/
def Registrator.rowLoop (row : List Int) (tCols : Nat) (todo j : Nat) (sMatrix : String) :
    Option String :=
  match todo with
  | 0 => some sMatrix
  | todo + 1 =>
    match row[j]? with
    | none => none
    | some v =>
      let sTmp : String := to_string v
      let sMatrix1 : String := sMatrix ++ sTmp
      let sMatrix2 : String := if j < tCols - 1 then sMatrix1 ++ " " else sMatrix1
      Registrator.rowLoop row tCols todo (j + 1) sMatrix2

/-- The outer loop of `getTranslationTransform()` from row `i` on: `todo` rows
are left, `v` is the vector so far. -/
def Registrator.rowsLoop (translMatrix : List (List Int)) (tCols : Nat) (todo i : Nat)
    (v : List String) : Option (List String) :=
  match todo with
  | 0 => some v
  | todo + 1 =>
    match translMatrix[i]? with
    | none => none
    | some row =>
      match Registrator.rowLoop row tCols tCols 0 "" with
      | none => none
      | some sMatrix => Registrator.rowsLoop translMatrix tCols todo (i + 1) (v ++ [sMatrix])

/-- The method `RegistrationMetadata::getTranslationTransform()`. The column
count is read from `translMatrix[1]`; with fewer than two rows that read has
no defined result (`none`). -/
def Registrator.RegistrationMetadata.getTranslationTransform
    (md : Registrator.RegistrationMetadata) : Option (List String) :=
  let tRows : Nat := md.translMatrix.length
  match md.translMatrix[1]? with
  | none => none
  | some rowOne =>
    let tCols : Nat := rowOne.length
    Registrator.rowsLoop md.translMatrix tCols tRows 0 []

/-- The method `RegistrationMetadata::centerOfRotation(std::vector<int>&)`:
the metadata and the vector of the caller afterwards. -/
def Registrator.RegistrationMetadata.centerOfRotation
    (md : Registrator.RegistrationMetadata) (center : List Int) :
    Registrator.RegistrationMetadata × List Int :=
  (md, md.centerRot.to_v center)

/-- The conversion of a metadata point to the `cv::Point2f` the geometry
classes take. -/
def Registrator.Point.toPoint2f (p : Registrator.Point) : Point2f := ⟨(p.x : ℝ), (p.y : ℝ)⟩

/-- Modelled from the spec: the part of `Registrator::performRegistration()`
(declared in `nfrl_lib.h`; its body is not available) that checks the control
points of each image and builds the two same-image pairs. The spec:
"coincident points that make a segment degenerate" are an input-validation
error, "raised before any transform is computed; no partial state is
produced"; then "build a SameImagePointPair for each image from its two
control points". The constructor's comment in `points_on_image.cpp`: "Miscue
is thrown prior to this constructor being called when control-point-pair for
same image contains the identical point (x,y) coordinates". The text of the
message is not given. -/
noncomputable def Registrator.buildPointsOnImages
    (movingOne movingTwo fixedOne fixedTwo : Registrator.Point) :
    Except Miscue (PointsOnImage × PointsOnImage) :=
  if movingOne = movingTwo ∨ fixedOne = fixedTwo then
    .error ⟨"control points on the same image are identical"⟩
  else
    .ok (PointsOnImage.new movingOne.toPoint2f movingTwo.toPoint2f,
         PointsOnImage.new fixedOne.toPoint2f fixedTwo.toPoint2f)

/-- A 2 x 2 image, white throughout. -/
def sampleWhite : Mat := ⟨2, 2, fun _ _ => 255⟩

/-- An image with no rows and no columns. -/
def sampleEmpty : Mat := ⟨0, 0, fun _ _ => 0⟩

/-- The three OpenCV functions the constructor calls directly inside its `try`
block, `cv::bitwise_not`, `cv::findNonZero` and `cv::boundingRect`, as calls
that either return their output or throw a `cv::Exception`. -/
structure CvCalls where
  bitwise_not : Mat → Except CvException Mat
  findNonZero : Mat → Except CvException (List Point)
  boundingRect : List Point → Except CvException Rect

/-- The three OpenCV calls on the 8-bit single-channel images of this
development, where none of them throws: each returns the value of the
function defined above. -/
def CvCalls.nonThrowing : CvCalls :=
  { bitwise_not := fun src => .ok (NFRL.bitwise_not src)
    findNonZero := fun src => .ok (NFRL.findNonZero src)
    boundingRect := fun pts => .ok (NFRL.boundingRect pts) }

/-- The constructor `OverlapRegisteredImages::OverlapRegisteredImages(cv::Mat, cv::Mat)`
with every call of its `try` block able to throw: the statements are those of
`OverlapRegisteredImages.new`, in the same order, and the three OpenCV
functions called directly are taken from `cv`. A `cv::Exception` of any of
the eight calls is caught and thrown again as a `Miscue` whose message is the
fixed text followed by `ex.what()`. -/
def OverlapRegisteredImages.newWith (cv : CvCalls) (ops : CVops) (img1 img2 : Mat) :
    Except Miscue OverlapRegisteredImages :=
  let params : DilationKernelParams := { type := MORPH_RECT, size := 1 }
  let tryBlock : Except CvException OverlapRegisteredImages :=
    match ops.binarize_image_via_otsu_threshold img1 _max_BINARY_value with
    | .error ex => .error ex
    | .ok img1Binary =>
    match ops.binarize_image_via_otsu_threshold img2 _max_BINARY_value with
    | .error ex => .error ex
    | .ok img2Binary =>
    match ops.sum_two_binary_images img1Binary img2Binary
        (Mat.zeros img1Binary.rows img1Binary.cols) with
    | .error ex => .error ex
    | .ok sumOverlapOfRegisteredBinaries =>
    match cv.bitwise_not sumOverlapOfRegisteredBinaries with
    | .error ex => .error ex
    | .ok sumBinariesInverted =>
    match ops.image_dilate sumBinariesInverted params.size params.type with
    | .error ex => .error ex
    | .ok sumBinariesDilate =>
    match ops.imencode ".png" sumBinariesDilate [IMWRITE_PNG_STRATEGY_DEFAULT] with
    | .error ex => .error ex
    | .ok vecPngBlob =>
    match cv.findNonZero sumBinariesDilate with
    | .error ex => .error ex
    | .ok nonZeroPoints =>
    match cv.boundingRect nonZeroPoints with
    | .error ex => .error ex
    | .ok minRect =>
    .ok { _minRect := minRect
          _vecPngBlob := vecPngBlob
          _dilationKernelParams := params }
  match tryBlock with
  | .ok o => .ok o
  | .error ex =>
    .error ⟨"OverlapRegisteredImages, cannot calc image-crop ROI: " ++ ex.what⟩

/-- One of the raster primitives of the constructor throws the `cv::Exception`
`ex`, the calls before it having completed: the binarization of the first
image, that of the second, the sum, the inversion, the dilation, the PNG
encoding, the non-zero extraction or the bounding box. -/
def OverlapRegisteredImages.StageThrows (cv : CvCalls) (ops : CVops) (img1 img2 : Mat)
    (ex : CvException) : Prop :=
  ops.binarize_image_via_otsu_threshold img1 255 = .error ex ∨
  (∃ b1, ops.binarize_image_via_otsu_threshold img1 255 = .ok b1 ∧
    ops.binarize_image_via_otsu_threshold img2 255 = .error ex) ∨
  (∃ b1 b2, ops.binarize_image_via_otsu_threshold img1 255 = .ok b1 ∧
    ops.binarize_image_via_otsu_threshold img2 255 = .ok b2 ∧
    ops.sum_two_binary_images b1 b2 (Mat.zeros b1.rows b1.cols) = .error ex) ∨
  (∃ b1 b2 s, ops.binarize_image_via_otsu_threshold img1 255 = .ok b1 ∧
    ops.binarize_image_via_otsu_threshold img2 255 = .ok b2 ∧
    ops.sum_two_binary_images b1 b2 (Mat.zeros b1.rows b1.cols) = .ok s ∧
    cv.bitwise_not s = .error ex) ∨
  (∃ b1 b2 s inv, ops.binarize_image_via_otsu_threshold img1 255 = .ok b1 ∧
    ops.binarize_image_via_otsu_threshold img2 255 = .ok b2 ∧
    ops.sum_two_binary_images b1 b2 (Mat.zeros b1.rows b1.cols) = .ok s ∧
    cv.bitwise_not s = .ok inv ∧
    ops.image_dilate inv 1 MORPH_RECT = .error ex) ∨
  (∃ b1 b2 s inv d, ops.binarize_image_via_otsu_threshold img1 255 = .ok b1 ∧
    ops.binarize_image_via_otsu_threshold img2 255 = .ok b2 ∧
    ops.sum_two_binary_images b1 b2 (Mat.zeros b1.rows b1.cols) = .ok s ∧
    cv.bitwise_not s = .ok inv ∧
    ops.image_dilate inv 1 MORPH_RECT = .ok d ∧
    ops.imencode ".png" d [IMWRITE_PNG_STRATEGY_DEFAULT] = .error ex) ∨
  (∃ b1 b2 s inv d blob, ops.binarize_image_via_otsu_threshold img1 255 = .ok b1 ∧
    ops.binarize_image_via_otsu_threshold img2 255 = .ok b2 ∧
    ops.sum_two_binary_images b1 b2 (Mat.zeros b1.rows b1.cols) = .ok s ∧
    cv.bitwise_not s = .ok inv ∧
    ops.image_dilate inv 1 MORPH_RECT = .ok d ∧
    ops.imencode ".png" d [IMWRITE_PNG_STRATEGY_DEFAULT] = .ok blob ∧
    cv.findNonZero d = .error ex) ∨
  (∃ b1 b2 s inv d blob pts, ops.binarize_image_via_otsu_threshold img1 255 = .ok b1 ∧
    ops.binarize_image_via_otsu_threshold img2 255 = .ok b2 ∧
    ops.sum_two_binary_images b1 b2 (Mat.zeros b1.rows b1.cols) = .ok s ∧
    cv.bitwise_not s = .ok inv ∧
    ops.image_dilate inv 1 MORPH_RECT = .ok d ∧
    ops.imencode ".png" d [IMWRITE_PNG_STRATEGY_DEFAULT] = .ok blob ∧
    cv.findNonZero d = .ok pts ∧
    cv.boundingRect pts = .error ex)

/-- A stand-in for the OpenCV calls in which `cv::bitwise_not` throws on every
image, for running that error path of the constructor. -/
def sampleCvNotThrows : CvCalls :=
  { bitwise_not := fun _ => .error ⟨"bitwise_not: assertion failed"⟩
    findNonZero := fun src => .ok (NFRL.findNonZero src)
    boundingRect := fun pts => .ok (NFRL.boundingRect pts) }

/-- A stand-in for the OpenCV calls in which `cv::findNonZero` throws on every
image. -/
def sampleCvFindThrows : CvCalls :=
  { bitwise_not := fun src => .ok (NFRL.bitwise_not src)
    findNonZero := fun _ => .error ⟨"findNonZero: assertion failed"⟩
    boundingRect := fun pts => .ok (NFRL.boundingRect pts) }

/-- A stand-in for the OpenCV calls in which `cv::boundingRect` throws on every
point set. -/
def sampleCvRectThrows : CvCalls :=
  { bitwise_not := fun src => .ok (NFRL.bitwise_not src)
    findNonZero := fun src => .ok (NFRL.findNonZero src)
    boundingRect := fun _ => .error ⟨"boundingRect: assertion failed"⟩ }

/-- A metadata value whose translation matrix is that of the translation by
(5, -7): rows 1 0 5 and 0 1 -7. Every other field is zero or empty. -/
def sampleMetadata : Registrator.RegistrationMetadata :=
  { tx := 5
    ty := -7
    translMatrix := [[1, 0, 5], [0, 1, -7]]
    angleDiffDegrees := 0
    centerRot := ⟨20, 20⟩
    rotMatrix := []
    controlPoints := { point := [], euclideanDistance := ⟨0, 0⟩ }
    scaleFactor := ⟨1, 1⟩
    srcMovingImgSize := ⟨0, 0⟩
    srcFixedImgSize := ⟨0, 0⟩
    paddedImgSize := ⟨0, 0⟩
    registeredImgSize := ⟨0, 0⟩
    convertToGrayscale := ⟨false, false⟩
    overlapROICorners := [] }

/-! # Theorems -/

/-! ## Control-point geometry -/

theorem cvRound_intCast (n : ℤ) : cvRound (n : ℝ) = n := by
  simp [cvRound]

theorem cvRound_quarter : cvRound (1 / 4 : ℝ) = 0 := by
  have h : ⌊(1 / 4 : ℝ)⌋ = 0 := Int.floor_eq_iff.mpr ⟨by norm_num, by norm_num⟩
  simp only [cvRound, h]
  norm_num

theorem new_segmentLength (p q : Point2f) :
    (PointsOnImage.new p q).segmentLength = Real.sqrt ((q.x - p.x) ^ 2 + (q.y - p.y) ^ 2) := rfl

theorem new_slope (p q : Point2f) :
    (PointsOnImage.new p q)._slope = -((q.y - p.y) / (q.x - p.x)) := rfl

theorem new_angleDegrees (p q : Point2f) :
    (PointsOnImage.new p q).angleDegrees =
      if (q.x - p.x > 0 ∧ -((q.y - p.y) / (q.x - p.x)) < 0) ∨
          (q.x - p.x < 0 ∧ -((q.y - p.y) / (q.x - p.x)) > 0) then
        -(Real.arccos ((q.x - p.x) / Real.sqrt ((q.x - p.x) ^ 2 + (q.y - p.y) ^ 2))
            * 180 / 3.141592653589)
      else
        Real.arccos ((q.x - p.x) / Real.sqrt ((q.x - p.x) ^ 2 + (q.y - p.y) ^ 2))
            * 180 / 3.141592653589 := by
  simp only [PointsOnImage.new]
  norm_num
  split_ifs <;> tauto

theorem negate_cond_iff (dx dy : ℝ) :
    ((dx > 0 ∧ -(dy / dx) < 0) ∨ (dx < 0 ∧ -(dy / dx) > 0)) ↔ (dx ≠ 0 ∧ 0 < dy) := by
  rcases lt_trichotomy dx 0 with h | h | h
  · have h1 : -(dy / dx) > 0 ↔ 0 < dy := by
      rw [gt_iff_lt, neg_pos, div_neg_iff]
      constructor
      · rintro (⟨h2, _⟩ | ⟨_, h2⟩)
        · exact h2
        · exact absurd h2 (not_lt.mpr h.le)
      · intro h2; exact Or.inl ⟨h2, h⟩
    constructor
    · rintro (⟨h2, _⟩ | ⟨_, h2⟩)
      · exact absurd h2 (not_lt.mpr h.le)
      · exact ⟨h.ne, h1.mp h2⟩
    · rintro ⟨_, h2⟩; exact Or.inr ⟨h, h1.mpr h2⟩
  · subst h; simp
  · have h1 : -(dy / dx) < 0 ↔ 0 < dy := by
      rw [neg_lt_zero, div_pos_iff]
      constructor
      · rintro (⟨h2, _⟩ | ⟨_, h2⟩)
        · exact h2
        · exact absurd h2 (not_lt.mpr h.le)
      · intro h2; exact Or.inl ⟨h2, h⟩
    constructor
    · rintro (⟨_, h2⟩ | ⟨h2, _⟩)
      · exact ⟨h.ne', h1.mp h2⟩
      · exact absurd h2 (not_lt.mpr h.le)
    · rintro ⟨_, h2⟩; exact Or.inl ⟨h, h1.mpr h2⟩

theorem new_angleDegrees_eq (p q : Point2f) :
    (PointsOnImage.new p q).angleDegrees =
      if q.x - p.x ≠ 0 ∧ 0 < q.y - p.y then
        -(Real.arccos ((q.x - p.x) / Real.sqrt ((q.x - p.x) ^ 2 + (q.y - p.y) ^ 2))
            * 180 / 3.141592653589)
      else
        Real.arccos ((q.x - p.x) / Real.sqrt ((q.x - p.x) ^ 2 + (q.y - p.y) ^ 2))
            * 180 / 3.141592653589 := by
  rw [new_angleDegrees]
  simp only [negate_cond_iff]

theorem abs_lt_sqrt_of_ne (dx dy : ℝ) (h : dy ≠ 0) : |dx| < Real.sqrt (dx ^ 2 + dy ^ 2) := by
  rw [← Real.sqrt_sq_eq_abs]
  apply Real.sqrt_lt_sqrt (sq_nonneg dx)
  have : 0 < dy ^ 2 := by positivity
  linarith

theorem sqrt_pos_of_ne (dx dy : ℝ) (h : dx ≠ 0 ∨ dy ≠ 0) : 0 < Real.sqrt (dx ^ 2 + dy ^ 2) := by
  apply Real.sqrt_pos.mpr
  rcases h with h | h
  · have : 0 < dx ^ 2 := by positivity
    have := sq_nonneg dy
    linarith
  · have : 0 < dy ^ 2 := by positivity
    have := sq_nonneg dx
    linarith

theorem div_sqrt_lt_one (dx dy : ℝ) (h : dy ≠ 0) : dx / Real.sqrt (dx ^ 2 + dy ^ 2) < 1 := by
  have hL := sqrt_pos_of_ne dx dy (Or.inr h)
  rw [div_lt_one hL]
  exact lt_of_le_of_lt (le_abs_self dx) (abs_lt_sqrt_of_ne dx dy h)

theorem neg_one_lt_div_sqrt (dx dy : ℝ) (h : dy ≠ 0) : -1 < dx / Real.sqrt (dx ^ 2 + dy ^ 2) := by
  have hL := sqrt_pos_of_ne dx dy (Or.inr h)
  rw [lt_div_iff₀ hL]
  have := abs_lt_sqrt_of_ne dx dy h
  have := neg_abs_le dx
  linarith

theorem arccos_diag : Real.arccos (1 / Real.sqrt 2) = Real.pi / 4 := by
  have h : (1 : ℝ) / Real.sqrt 2 = Real.cos (Real.pi / 4) := by
    rw [Real.cos_pi_div_four]
    have h2 : Real.sqrt 2 ≠ 0 := by positivity
    field_simp
  rw [h]
  exact Real.arccos_cos (by positivity) (by linarith [Real.pi_pos])

theorem halfTurnDegrees_gt : 180 < halfTurnDegrees := by
  unfold halfTurnDegrees
  have := Real.pi_gt_d20
  rw [lt_div_iff₀ (by norm_num)]
  norm_num at this ⊢
  linarith

theorem sqrt_swap (p q : Point2f) :
    Real.sqrt ((p.x - q.x) ^ 2 + (p.y - q.y) ^ 2) =
      Real.sqrt ((q.x - p.x) ^ 2 + (q.y - p.y) ^ 2) := by
  congr 1; ring

theorem div_sqrt_self_of_pos (dx : ℝ) (h : 0 < dx) : dx / Real.sqrt (dx ^ 2 + 0 ^ 2) = 1 := by
  rw [show dx ^ 2 + 0 ^ 2 = dx ^ 2 by ring, Real.sqrt_sq h.le]
  exact div_self h.ne'

theorem div_sqrt_self_of_neg (dx : ℝ) (h : dx < 0) : dx / Real.sqrt (dx ^ 2 + 0 ^ 2) = -1 := by
  rw [show dx ^ 2 + 0 ^ 2 = (-dx) ^ 2 by ring, Real.sqrt_sq (by linarith)]
  rw [div_neg, div_self h.ne]

/-- The angle of the reversed segment, for a segment that is not vertical:
the stored angle moves by the stored half turn, back towards zero. -/
theorem angleDegrees_swap (p1 p2 : Point2f) (hdx : p2.x - p1.x ≠ 0) :
    (PointsOnImage.new p2 p1).angleDegrees =
      if (PointsOnImage.new p1 p2).angleDegrees ≤ 0 then
        (PointsOnImage.new p1 p2).angleDegrees + halfTurnDegrees
      else (PointsOnImage.new p1 p2).angleDegrees - halfTurnDegrees := by
  have hdx' : p1.x - p2.x ≠ 0 := fun h => hdx (by linarith)
  have hneg : (p1.x - p2.x) / Real.sqrt ((p2.x - p1.x) ^ 2 + (p2.y - p1.y) ^ 2) =
      -((p2.x - p1.x) / Real.sqrt ((p2.x - p1.x) ^ 2 + (p2.y - p1.y) ^ 2)) := by
    rw [← neg_div]; congr 1; ring
  rw [new_angleDegrees_eq p2 p1, new_angleDegrees_eq p1 p2, sqrt_swap p1 p2, hneg,
    Real.arccos_neg]
  unfold halfTurnDegrees
  set a := Real.arccos ((p2.x - p1.x) / Real.sqrt ((p2.x - p1.x) ^ 2 + (p2.y - p1.y) ^ 2))
    with ha
  have ha0 : 0 ≤ a := Real.arccos_nonneg _
  rcases lt_trichotomy (p2.y - p1.y) 0 with hdy | hdy | hdy
  · have hapos : 0 < a := Real.arccos_pos.mpr (div_sqrt_lt_one _ _ hdy.ne)
    have h1 : ¬ (p2.x - p1.x ≠ 0 ∧ 0 < p2.y - p1.y) := fun h => absurd h.2 (not_lt.mpr hdy.le)
    have h2 : p1.x - p2.x ≠ 0 ∧ 0 < p1.y - p2.y := ⟨hdx', by linarith⟩
    have h3 : ¬ (a * 180 / 3.141592653589 ≤ 0) := by
      have : 0 < a * 180 / 3.141592653589 := by positivity
      linarith
    rw [if_pos h2, if_neg h1, if_neg h3]
    norm_num
    ring
  · have h1 : ¬ (p2.x - p1.x ≠ 0 ∧ 0 < p2.y - p1.y) := fun h => absurd h.2 (by rw [hdy]; simp)
    have h2 : ¬ (p1.x - p2.x ≠ 0 ∧ 0 < p1.y - p2.y) := fun h => by linarith [h.2]
    rw [if_neg h2, if_neg h1]
    rcases lt_or_gt_of_ne hdx with hx | hx
    · have hval : a = Real.pi := by
        rw [ha, hdy, div_sqrt_self_of_neg _ hx, Real.arccos_neg_one]
      have h3 : ¬ (a * 180 / 3.141592653589 ≤ 0) := by
        have : 0 < a * 180 / 3.141592653589 := by
          rw [hval]; have := Real.pi_pos; positivity
        linarith
      rw [if_neg h3, hval]
      norm_num
    · have hval : a = 0 := by
        rw [ha, hdy, div_sqrt_self_of_pos _ hx, Real.arccos_one]
      rw [hval]
      norm_num
  · have h1 : p2.x - p1.x ≠ 0 ∧ 0 < p2.y - p1.y := ⟨hdx, hdy⟩
    have h2 : ¬ (p1.x - p2.x ≠ 0 ∧ 0 < p1.y - p2.y) := fun h => by linarith [h.2]
    have h3 : -(a * 180 / 3.141592653589) ≤ 0 := by
      have : 0 ≤ a * 180 / 3.141592653589 := by positivity
      linarith
    rw [if_neg h2, if_pos h1, if_pos h3]
    norm_num
    ring

/-- Where the coordinate differences of the two points are integers,
`distance()` is the Euclidean distance of the two points. -/
theorem distance_of_int_diff (c : CorrespondingPointsPair) (m n : ℤ)
    (hx : c._movingPt.x - c._fixedPt.x = m) (hy : c._movingPt.y - c._fixedPt.y = n) :
    c.distance = Real.sqrt ((c._movingPt.x - c._fixedPt.x) ^ 2
      + (c._movingPt.y - c._fixedPt.y) ^ 2) := by
  simp only [CorrespondingPointsPair.distance, Point2f.toPoint, Point2f.sub, Point.ddot, hx, hy,
    cvRound_intCast]
  congr 1; ring

/-- C1, evaluated at the moving point (0.25, 0) and the fixed point (0, 0):
`distance()` converts the difference to integer coordinates first and
returns 0, while the Euclidean distance of the two points is 0.25. -/
theorem C1_distance_rounds_difference :
    (CorrespondingPointsPair.mk ⟨1 / 4, 0⟩ ⟨0, 0⟩).distance = 0 ∧
      Real.sqrt (((1 / 4 : ℝ) - 0) ^ 2 + ((0 : ℝ) - 0) ^ 2) = 1 / 4 ∧
      (CorrespondingPointsPair.mk ⟨1 / 4, 0⟩ ⟨0, 0⟩).distance ≠
        Real.sqrt (((1 / 4 : ℝ) - 0) ^ 2 + ((0 : ℝ) - 0) ^ 2) := by
  have h1 : (CorrespondingPointsPair.mk ⟨1 / 4, 0⟩ ⟨0, 0⟩).distance = 0 := by
    have h0 : cvRound ((0 : ℝ) - 0) = 0 := by
      have := cvRound_intCast 0
      simpa using this
    have hq : cvRound ((1 / 4 : ℝ) - 0) = 0 := by
      rw [sub_zero]; exact cvRound_quarter
    simp only [CorrespondingPointsPair.distance, Point2f.toPoint, Point2f.sub, Point.ddot, h0, hq]
    simp
  have h2 : Real.sqrt (((1 / 4 : ℝ) - 0) ^ 2 + ((0 : ℝ) - 0) ^ 2) = 1 / 4 := by
    rw [show ((1 / 4 : ℝ) - 0) ^ 2 + ((0 : ℝ) - 0) ^ 2 = (1 / 4) ^ 2 by norm_num]
    exact Real.sqrt_sq (by norm_num)
  refine ⟨h1, h2, ?_⟩
  rw [h1, h2]
  norm_num

/-- The stored angle of a non-coincident pair lies between minus the stored
half turn (excluded) and the stored half turn (included). -/
theorem angleDegrees_mem_halfTurn (p1 p2 : Point2f) (_h : p1.x ≠ p2.x ∨ p1.y ≠ p2.y) :
    -halfTurnDegrees < (PointsOnImage.new p1 p2).angleDegrees ∧
      (PointsOnImage.new p1 p2).angleDegrees ≤ halfTurnDegrees := by
  rw [new_angleDegrees_eq]
  unfold halfTurnDegrees
  set a := Real.arccos ((p2.x - p1.x) / Real.sqrt ((p2.x - p1.x) ^ 2 + (p2.y - p1.y) ^ 2))
    with ha
  have ha0 : 0 ≤ a := Real.arccos_nonneg _
  have ha1 : a ≤ Real.pi := Real.arccos_le_pi _
  have hpi := Real.pi_pos
  have hup : a * 180 / 3.141592653589 ≤ Real.pi * 180.0 / 3.141592653589 := by
    apply div_le_div_of_nonneg_right _ (by norm_num)
    norm_num; linarith
  have hnn : 0 ≤ a * 180 / (3.141592653589 : ℝ) := by positivity
  have hH : 0 < Real.pi * 180.0 / (3.141592653589 : ℝ) := by positivity
  split_ifs with hc
  · have hlt : a < Real.pi := by
      rw [ha]
      apply lt_of_le_of_ne (Real.arccos_le_pi _)
      intro he
      have := Real.arccos_eq_pi.mp he
      have := neg_one_lt_div_sqrt (p2.x - p1.x) (p2.y - p1.y) hc.2.ne'
      linarith
    have : a * 180 / 3.141592653589 < Real.pi * 180.0 / 3.141592653589 := by
      apply div_lt_div_of_pos_right _ (by norm_num)
      norm_num; linarith
    constructor <;> linarith
  · constructor <;> linarith

/-- C2, evaluated at p1 = (1, 0), p2 = (0, 0) (point 2 level with point 1, to
its left): the constructor stores `acos(-1) * 180 / 3.141592653589`, which is
pi * 180 / 3.141592653589 and exceeds 180. -/
theorem C2_angleDegrees_exceeds_180 :
    (PointsOnImage.new ⟨1, 0⟩ ⟨0, 0⟩).angleDegrees = Real.pi * 180 / 3.141592653589 ∧
      180 < (PointsOnImage.new ⟨1, 0⟩ ⟨0, 0⟩).angleDegrees := by
  have h : (PointsOnImage.new ⟨1, 0⟩ ⟨0, 0⟩).angleDegrees = Real.pi * 180 / 3.141592653589 := by
    rw [new_angleDegrees_eq]
    have hs : Real.sqrt (((0 : ℝ) - 1) ^ 2 + ((0 : ℝ) - 0) ^ 2) = 1 := by
      rw [show ((0 : ℝ) - 1) ^ 2 + ((0 : ℝ) - 0) ^ 2 = 1 by norm_num]
      exact Real.sqrt_one
    simp only [hs]
    norm_num
  refine ⟨h, ?_⟩
  rw [h]
  have := halfTurnDegrees_gt
  unfold halfTurnDegrees at this
  norm_num at this ⊢
  exact this

/-- C3 as stated fails at p1 = (0, 0), p2 = (1, 1), where dx = 1: the pair
(p1, p2) has angle -(pi/4) * 180 / 3.141592653589 (about -45), the swapped
pair has (3 pi/4) * 180 / 3.141592653589 (about 135), which is not the
negation. -/
theorem C3_swap_negates_counterexample :
    ((1 : ℝ) - 0 ≠ 0) ∧
      (PointsOnImage.new ⟨0, 0⟩ ⟨1, 1⟩).angleDegrees
        = -(Real.pi / 4 * 180 / 3.141592653589) ∧
      (PointsOnImage.new ⟨1, 1⟩ ⟨0, 0⟩).angleDegrees
        = 3 * Real.pi / 4 * 180 / 3.141592653589 ∧
      (PointsOnImage.new ⟨1, 1⟩ ⟨0, 0⟩).angleDegrees
        ≠ -(PointsOnImage.new ⟨0, 0⟩ ⟨1, 1⟩).angleDegrees := by
  have hs1 : Real.sqrt (((1 : ℝ) - 0) ^ 2 + ((1 : ℝ) - 0) ^ 2) = Real.sqrt 2 := by
    congr 1; norm_num
  have hs2 : Real.sqrt (((0 : ℝ) - 1) ^ 2 + ((0 : ℝ) - 1) ^ 2) = Real.sqrt 2 := by
    congr 1; norm_num
  have h1 : (PointsOnImage.new ⟨0, 0⟩ ⟨1, 1⟩).angleDegrees
      = -(Real.pi / 4 * 180 / 3.141592653589) := by
    rw [new_angleDegrees_eq]
    simp only [hs1]
    rw [if_pos ⟨by norm_num, by norm_num⟩, sub_zero, arccos_diag]
  have h2 : (PointsOnImage.new ⟨1, 1⟩ ⟨0, 0⟩).angleDegrees
      = 3 * Real.pi / 4 * 180 / 3.141592653589 := by
    rw [new_angleDegrees_eq]
    simp only [hs2]
    rw [if_neg (by norm_num), show ((0 : ℝ) - 1) / Real.sqrt 2 = -(1 / Real.sqrt 2) by ring,
      Real.arccos_neg, arccos_diag]
    ring
  refine ⟨by norm_num, h1, h2, ?_⟩
  rw [h1, h2]
  intro h
  have hpi := Real.pi_pos
  have h3 : 3 * Real.pi / 4 * 180 / 3.141592653589 - Real.pi / 4 * 180 / 3.141592653589
      = Real.pi * (90 / 3.141592653589) := by ring
  have h4 : 0 < Real.pi * (90 / 3.141592653589) := by positivity
  linarith

/-- C3, amended: for two points with dx = p2.x - p1.x different from zero,
swapping the point order moves the stored angle by the stored half turn
(pi * 180 / 3.141592653589 degrees) towards zero: it adds the half turn to an
angle that is zero or negative and subtracts it from a positive one. -/
theorem C3_swap_shifts_by_half_turn (p1 p2 : Point2f) (hdx : p2.x - p1.x ≠ 0) :
    (PointsOnImage.new p2 p1).angleDegrees =
      if (PointsOnImage.new p1 p2).angleDegrees ≤ 0 then
        (PointsOnImage.new p1 p2).angleDegrees + halfTurnDegrees
      else (PointsOnImage.new p1 p2).angleDegrees - halfTurnDegrees :=
  angleDegrees_swap p1 p2 hdx

/-- Witness of C3 (amended) at p1 = (0, 0), p2 = (1, 1). -/
theorem C3_swap_shifts_by_half_turn_witness :
    ((1 : ℝ) - 0 ≠ 0) ∧
      (PointsOnImage.new ⟨1, 1⟩ ⟨0, 0⟩).angleDegrees =
        if (PointsOnImage.new ⟨0, 0⟩ ⟨1, 1⟩).angleDegrees ≤ 0 then
          (PointsOnImage.new ⟨0, 0⟩ ⟨1, 1⟩).angleDegrees + halfTurnDegrees
        else (PointsOnImage.new ⟨0, 0⟩ ⟨1, 1⟩).angleDegrees - halfTurnDegrees :=
  ⟨by norm_num, C3_swap_shifts_by_half_turn ⟨0, 0⟩ ⟨1, 1⟩ (by norm_num)⟩

/-- C4: for dx and dy both different from zero, the stored angle is strictly
negative when point 2 is below point 1 (dy > 0) and strictly positive when it
is above (dy < 0), on either side; the stored slope is negative for
below-right and above-left and positive for above-right and below-left. -/
theorem C4_angle_and_slope_signs (p1 p2 : Point2f)
    (hdx : p2.x - p1.x ≠ 0) (hdy : p2.y - p1.y ≠ 0) :
    (0 < p2.y - p1.y → (PointsOnImage.new p1 p2).angleDegrees < 0) ∧
      (p2.y - p1.y < 0 → 0 < (PointsOnImage.new p1 p2).angleDegrees) ∧
      (0 < p2.x - p1.x ∧ 0 < p2.y - p1.y → (PointsOnImage.new p1 p2)._slope < 0) ∧
      (p2.x - p1.x < 0 ∧ p2.y - p1.y < 0 → (PointsOnImage.new p1 p2)._slope < 0) ∧
      (0 < p2.x - p1.x ∧ p2.y - p1.y < 0 → 0 < (PointsOnImage.new p1 p2)._slope) ∧
      (p2.x - p1.x < 0 ∧ 0 < p2.y - p1.y → 0 < (PointsOnImage.new p1 p2)._slope) := by
  have hapos : 0 < Real.arccos ((p2.x - p1.x) /
      Real.sqrt ((p2.x - p1.x) ^ 2 + (p2.y - p1.y) ^ 2)) * 180 / 3.141592653589 := by
    have := Real.arccos_pos.mpr (div_sqrt_lt_one (p2.x - p1.x) (p2.y - p1.y) hdy)
    positivity
  refine ⟨?_, ?_, ?_, ?_, ?_, ?_⟩
  · intro h
    rw [new_angleDegrees_eq, if_pos ⟨hdx, h⟩]
    linarith
  · intro h
    rw [new_angleDegrees_eq, if_neg (fun hc => by linarith [hc.2])]
    exact hapos
  · rintro ⟨hx, hy⟩
    rw [new_slope, neg_lt_zero]
    exact div_pos hy hx
  · rintro ⟨hx, hy⟩
    rw [new_slope, neg_lt_zero]
    exact div_pos_of_neg_of_neg hy hx
  · rintro ⟨hx, hy⟩
    rw [new_slope, neg_pos]
    exact div_neg_of_neg_of_pos hy hx
  · rintro ⟨hx, hy⟩
    rw [new_slope, neg_pos]
    exact div_neg_of_pos_of_neg hy hx

/-- Witness of C4 at p1 = (0, 0), p2 = (3, 4) (point 2 below and to the right). -/
theorem C4_angle_and_slope_signs_witness :
    ((3 : ℝ) - 0 ≠ 0 ∧ (4 : ℝ) - 0 ≠ 0) ∧
      (PointsOnImage.new ⟨0, 0⟩ ⟨3, 4⟩).angleDegrees < 0 ∧
      (PointsOnImage.new ⟨0, 0⟩ ⟨3, 4⟩)._slope < 0 :=
  ⟨⟨by norm_num, by norm_num⟩,
    (C4_angle_and_slope_signs ⟨0, 0⟩ ⟨3, 4⟩ (by norm_num) (by norm_num)).1 (by norm_num),
    (C4_angle_and_slope_signs ⟨0, 0⟩ ⟨3, 4⟩ (by norm_num) (by norm_num)).2.2.1
      ⟨by norm_num, by norm_num⟩⟩

/-- C5: the segment length is the square root of dx^2 + dy^2 and does not
change when one rigid motion (rotation about any centre by any angle, then
any translation) is applied to both points. -/
theorem C5_segmentLength_rigid_invariant (p1 p2 centre : Point2f) (theta tx ty : ℝ) :
    (PointsOnImage.new (rigidMotion theta centre tx ty p1)
        (rigidMotion theta centre tx ty p2)).segmentLength
      = (PointsOnImage.new p1 p2).segmentLength ∧
    (PointsOnImage.new p1 p2).segmentLength
      = Real.sqrt ((p2.x - p1.x) ^ 2 + (p2.y - p1.y) ^ 2) := by
  refine ⟨?_, rfl⟩
  rw [new_segmentLength, new_segmentLength]
  congr 1
  simp only [rigidMotion]
  have h := Real.sin_sq_add_cos_sq theta
  have e : ∀ a b dx dy : ℝ, (a * dx + b * dy) ^ 2 + (-b * dx + a * dy) ^ 2
      = (b ^ 2 + a ^ 2) * (dx ^ 2 + dy ^ 2) := by intros; ring
  have := e (Real.cos theta) (Real.sin theta) (p2.x - p1.x) (p2.y - p1.y)
  rw [h, one_mul] at this
  rw [← this]
  ring

/-- C6, evaluated on the scenario: the horizontal pair has length 100 and
angle 0 and the vertical pair has length 100, so the ratio of lengths is 1;
the angle stored for the vertical pair is (pi/2) * 180 / 3.141592653589,
which exceeds 90, so it is neither 90 nor -90 and the angle difference
fixed - moving is neither 90 nor -90. -/
theorem C6_scenario_vertical_angle_exceeds_90 :
    (PointsOnImage.new ⟨10, 10⟩ ⟨110, 10⟩).segmentLength = 100 ∧
      (PointsOnImage.new ⟨10, 10⟩ ⟨110, 10⟩).angleDegrees = 0 ∧
      (PointsOnImage.new ⟨20, 20⟩ ⟨20, 120⟩).segmentLength = 100 ∧
      (PointsOnImage.new ⟨20, 20⟩ ⟨20, 120⟩).angleDegrees
        = Real.pi / 2 * 180 / 3.141592653589 ∧
      90 < (PointsOnImage.new ⟨20, 20⟩ ⟨20, 120⟩).angleDegrees ∧
      (PointsOnImage.new ⟨20, 20⟩ ⟨20, 120⟩).angleDegrees
        - (PointsOnImage.new ⟨10, 10⟩ ⟨110, 10⟩).angleDegrees ≠ 90 ∧
      (PointsOnImage.new ⟨20, 20⟩ ⟨20, 120⟩).angleDegrees
        - (PointsOnImage.new ⟨10, 10⟩ ⟨110, 10⟩).angleDegrees ≠ -90 ∧
      (PointsOnImage.new ⟨10, 10⟩ ⟨110, 10⟩).segmentLength
        / (PointsOnImage.new ⟨20, 20⟩ ⟨20, 120⟩).segmentLength = 1 := by
  have hs1 : Real.sqrt (((110 : ℝ) - 10) ^ 2 + ((10 : ℝ) - 10) ^ 2) = 100 := by
    rw [show ((110 : ℝ) - 10) ^ 2 + ((10 : ℝ) - 10) ^ 2 = 100 ^ 2 by norm_num]
    exact Real.sqrt_sq (by norm_num)
  have hs2 : Real.sqrt (((20 : ℝ) - 20) ^ 2 + ((120 : ℝ) - 20) ^ 2) = 100 := by
    rw [show ((20 : ℝ) - 20) ^ 2 + ((120 : ℝ) - 20) ^ 2 = 100 ^ 2 by norm_num]
    exact Real.sqrt_sq (by norm_num)
  have hA : (PointsOnImage.new ⟨10, 10⟩ ⟨110, 10⟩).angleDegrees = 0 := by
    rw [new_angleDegrees_eq]
    simp only [hs1]
    rw [if_neg (by norm_num),
      show ((110 : ℝ) - 10) / 100 = 1 by norm_num, Real.arccos_one]
    norm_num
  have hB : (PointsOnImage.new ⟨20, 20⟩ ⟨20, 120⟩).angleDegrees
      = Real.pi / 2 * 180 / 3.141592653589 := by
    rw [new_angleDegrees_eq]
    simp only [hs2]
    rw [if_neg (by norm_num),
      show ((20 : ℝ) - 20) / 100 = 0 by norm_num, Real.arccos_zero]
  have h90 : (90 : ℝ) < Real.pi / 2 * 180 / 3.141592653589 := by
    have := Real.pi_gt_d20
    rw [lt_div_iff₀ (by norm_num)]
    norm_num at this ⊢
    linarith
  refine ⟨hs1, hA, hs2, hB, ?_, ?_, ?_, ?_⟩
  · rw [hB]; exact h90
  · rw [hA, hB, sub_zero]; exact h90.ne'
  · rw [hA, hB, sub_zero]
    intro h
    linarith
  · rw [new_segmentLength, new_segmentLength]
    simp only [hs1, hs2]
    norm_num

/-- C7: the scale factor of two same-image pairs is the segment length of the
first over the segment length of the second, and for pairs of non-zero
segment length it is the reciprocal of the scale factor taken the other way
round. -/
theorem C7_scaleFactor_ratio_reciprocal (a b : PointsOnImage)
    (ha : a.segmentLength ≠ 0) (hb : b.segmentLength ≠ 0) :
    (PointsOnImages.new a b).getScaleFactor = a.segmentLength / b.segmentLength ∧
      (PointsOnImages.new a b).getScaleFactor
        = 1 / (PointsOnImages.new b a).getScaleFactor := by
  refine ⟨rfl, ?_⟩
  simp only [PointsOnImages.getScaleFactor, PointsOnImages.new]
  rw [eq_div_iff (div_ne_zero hb ha), div_mul_div_comm, mul_comm, div_self (mul_ne_zero hb ha)]

/-- Witness of C7 on the pairs (0,0),(3,4) (length 5) and (0,0),(6,8)
(length 10). -/
theorem C7_scaleFactor_ratio_reciprocal_witness :
    ((PointsOnImage.new ⟨0, 0⟩ ⟨3, 4⟩).segmentLength ≠ 0 ∧
      (PointsOnImage.new ⟨0, 0⟩ ⟨6, 8⟩).segmentLength ≠ 0) ∧
    ((PointsOnImages.new (PointsOnImage.new ⟨0, 0⟩ ⟨3, 4⟩)
        (PointsOnImage.new ⟨0, 0⟩ ⟨6, 8⟩)).getScaleFactor
      = (PointsOnImage.new ⟨0, 0⟩ ⟨3, 4⟩).segmentLength
        / (PointsOnImage.new ⟨0, 0⟩ ⟨6, 8⟩).segmentLength ∧
    (PointsOnImages.new (PointsOnImage.new ⟨0, 0⟩ ⟨3, 4⟩)
        (PointsOnImage.new ⟨0, 0⟩ ⟨6, 8⟩)).getScaleFactor
      = 1 / (PointsOnImages.new (PointsOnImage.new ⟨0, 0⟩ ⟨6, 8⟩)
        (PointsOnImage.new ⟨0, 0⟩ ⟨3, 4⟩)).getScaleFactor) :=
  have h1 : (PointsOnImage.new ⟨0, 0⟩ ⟨3, 4⟩).segmentLength ≠ 0 :=
    (sqrt_pos_of_ne _ _ (Or.inl (by norm_num))).ne'
  have h2 : (PointsOnImage.new ⟨0, 0⟩ ⟨6, 8⟩).segmentLength ≠ 0 :=
    (sqrt_pos_of_ne _ _ (Or.inl (by norm_num))).ne'
  ⟨⟨h1, h2⟩, C7_scaleFactor_ratio_reciprocal _ _ h1 h2⟩

/-- C8: for two same-image pairs whose two points are not coincident, the
scale factor (ratio of the two segment lengths the constructor computes) is
strictly positive. -/
theorem C8_scaleFactor_pos (p1 p2 q1 q2 : Point2f)
    (hp : p1.x ≠ p2.x ∨ p1.y ≠ p2.y) (hq : q1.x ≠ q2.x ∨ q1.y ≠ q2.y) :
    0 < (PointsOnImages.new (PointsOnImage.new p1 p2)
      (PointsOnImage.new q1 q2)).getScaleFactor := by
  have e : ∀ a b : Point2f, (a.x ≠ b.x ∨ a.y ≠ b.y) →
      0 < (PointsOnImage.new a b).segmentLength := by
    intro a b h
    rw [new_segmentLength]
    apply sqrt_pos_of_ne
    rcases h with h | h
    · exact Or.inl (fun h0 => h (by linarith))
    · exact Or.inr (fun h0 => h (by linarith))
  exact div_pos (e p1 p2 hp) (e q1 q2 hq)

/-- Witness of C8 on the pairs (10,10),(110,10) and (20,20),(20,120). -/
theorem C8_scaleFactor_pos_witness :
    (((10 : ℝ) ≠ 110 ∨ (10 : ℝ) ≠ 10) ∧ ((20 : ℝ) ≠ 20 ∨ (20 : ℝ) ≠ 120)) ∧
      0 < (PointsOnImages.new (PointsOnImage.new ⟨10, 10⟩ ⟨110, 10⟩)
        (PointsOnImage.new ⟨20, 20⟩ ⟨20, 120⟩)).getScaleFactor :=
  ⟨⟨Or.inl (by norm_num), Or.inr (by norm_num)⟩,
    C8_scaleFactor_pos ⟨10, 10⟩ ⟨110, 10⟩ ⟨20, 20⟩ ⟨20, 120⟩
      (Or.inl (by norm_num)) (Or.inr (by norm_num))⟩

/-! ## Overlap ROI -/

theorem mem_findNonZero (m : Mat) (p : Point) (h : p ∈ findNonZero m) :
    0 ≤ p.x ∧ p.x < m.cols ∧ 0 ≤ p.y ∧ p.y < m.rows := by
  simp only [findNonZero, List.mem_flatMap, List.mem_filterMap, List.mem_range] at h
  obtain ⟨r, hr, c, hc, hp⟩ := h
  split_ifs at hp
  cases hp
  exact ⟨Int.ofNat_nonneg c, Int.ofNat_lt.mpr hc, Int.ofNat_nonneg r, Int.ofNat_lt.mpr hr⟩

theorem foldl_min_bounds (f : Point → Int) (l : List Point) (a lo : Int)
    (ha : lo ≤ a) (hl : ∀ q ∈ l, lo ≤ f q) :
    lo ≤ l.foldl (fun m q => min m (f q)) a ∧ l.foldl (fun m q => min m (f q)) a ≤ a := by
  induction l generalizing a with
  | nil => exact ⟨ha, le_refl a⟩
  | cons q t ih =>
    have hq := hl q (List.mem_cons_self q t)
    have := ih (min a (f q)) (le_min ha hq) (fun x hx => hl x (List.mem_cons_of_mem q hx))
    exact ⟨this.1, le_trans this.2 (min_le_left a (f q))⟩

theorem foldl_max_bounds (f : Point → Int) (l : List Point) (a hi : Int)
    (ha : a ≤ hi) (hl : ∀ q ∈ l, f q ≤ hi) :
    l.foldl (fun m q => max m (f q)) a ≤ hi ∧ a ≤ l.foldl (fun m q => max m (f q)) a := by
  induction l generalizing a with
  | nil => exact ⟨ha, le_refl a⟩
  | cons q t ih =>
    have hq := hl q (List.mem_cons_self q t)
    have := ih (max a (f q)) (max_le ha hq) (fun x hx => hl x (List.mem_cons_of_mem q hx))
    exact ⟨this.1, le_trans (le_max_left a (f q)) this.2⟩

/-- The bounding rectangle of points that lie in the `W x H` pixel grid lies
in the grid. -/
theorem boundingRect_within (pts : List Point) (W H : Int) (hW : 0 ≤ W) (hH : 0 ≤ H)
    (h : ∀ p ∈ pts, 0 ≤ p.x ∧ p.x < W ∧ 0 ≤ p.y ∧ p.y < H) :
    0 ≤ (boundingRect pts).x ∧ 0 ≤ (boundingRect pts).y ∧
      (boundingRect pts).x + (boundingRect pts).width ≤ W ∧
      (boundingRect pts).y + (boundingRect pts).height ≤ H := by
  cases pts with
  | nil => simp [boundingRect, hW, hH]
  | cons p rest =>
    have hp := h p (List.mem_cons_self p rest)
    have hr : ∀ q ∈ rest, 0 ≤ q.x ∧ q.x < W ∧ 0 ≤ q.y ∧ q.y < H :=
      fun q hq => h q (List.mem_cons_of_mem p hq)
    have hxmin := foldl_min_bounds (fun q => q.x) rest p.x 0 hp.1 (fun q hq => (hr q hq).1)
    have hymin := foldl_min_bounds (fun q => q.y) rest p.y 0 hp.2.2.1
      (fun q hq => (hr q hq).2.2.1)
    have hxmax := foldl_max_bounds (fun q => q.x) rest p.x (W - 1) (by linarith [hp.2.1])
      (fun q hq => by linarith [(hr q hq).2.1])
    have hymax := foldl_max_bounds (fun q => q.y) rest p.y (H - 1) (by linarith [hp.2.2.2])
      (fun q hq => by linarith [(hr q hq).2.2.2])
    simp only [boundingRect]
    refine ⟨hxmin.1, hymin.1, ?_, ?_⟩
    · linarith [hxmax.1]
    · linarith [hymax.1]

/-- The constructor completes exactly when the five fallible stages complete,
and then it holds the values of the pipeline. -/
theorem new_ok_iff (ops : CVops) (img1 img2 : Mat) (o : OverlapRegisteredImages) :
    OverlapRegisteredImages.new ops img1 img2 = .ok o ↔
      ∃ b1 b2 s d blob,
        ops.binarize_image_via_otsu_threshold img1 255 = .ok b1 ∧
        ops.binarize_image_via_otsu_threshold img2 255 = .ok b2 ∧
        ops.sum_two_binary_images b1 b2 (Mat.zeros b1.rows b1.cols) = .ok s ∧
        ops.image_dilate (bitwise_not s) 1 MORPH_RECT = .ok d ∧
        ops.imencode ".png" d [IMWRITE_PNG_STRATEGY_DEFAULT] = .ok blob ∧
        o = { _minRect := boundingRect (findNonZero d)
              _vecPngBlob := blob
              _dilationKernelParams := { type := MORPH_RECT, size := 1 } } := by
  simp only [OverlapRegisteredImages.new, _max_BINARY_value]
  constructor
  · intro h
    cases h1 : ops.binarize_image_via_otsu_threshold img1 255 with
    | error e => simp [h1] at h
    | ok b1 =>
      cases h2 : ops.binarize_image_via_otsu_threshold img2 255 with
      | error e => simp [h1, h2] at h
      | ok b2 =>
        cases h3 : ops.sum_two_binary_images b1 b2 (Mat.zeros b1.rows b1.cols) with
        | error e => simp [h1, h2, h3] at h
        | ok s =>
          cases h4 : ops.image_dilate (bitwise_not s) 1 MORPH_RECT with
          | error e => simp [h1, h2, h3, h4] at h
          | ok d =>
            cases h5 : ops.imencode ".png" d [IMWRITE_PNG_STRATEGY_DEFAULT] with
            | error e => simp [h1, h2, h3, h4, h5] at h
            | ok blob =>
              simp only [h1, h2, h3, h4, h5, Except.ok.injEq] at h
              exact ⟨b1, b2, s, d, blob, rfl, rfl, h3, h4, h5, h.symm⟩
  · rintro ⟨b1, b2, s, d, blob, h1, h2, h3, h4, h5, rfl⟩
    simp only [h1, h2, h3, h4, h5]

/-- C9: the ROI the constructor stores is the bounding rectangle of the
non-zero pixels of the dilated, inverted sum of the two binaries, each image
binarized on its own with max value 255 and the dilation called with size 1
and the rectangular kernel type: when the constructor completes, the stages
have produced their images in that order and the ROI is that rectangle; and
when the stages (and the PNG encoding) complete, the constructor completes
with that ROI. -/
theorem C9_roi_is_pipeline (ops : CVops) (img1 img2 : Mat) :
    (∀ o, OverlapRegisteredImages.new ops img1 img2 = .ok o →
      ∃ b1 b2 s d,
        ops.binarize_image_via_otsu_threshold img1 255 = .ok b1 ∧
        ops.binarize_image_via_otsu_threshold img2 255 = .ok b2 ∧
        ops.sum_two_binary_images b1 b2 (Mat.zeros b1.rows b1.cols) = .ok s ∧
        ops.image_dilate (bitwise_not s) 1 MORPH_RECT = .ok d ∧
        o.getRegionOfInterest = boundingRect (findNonZero d)) ∧
    (∀ b1 b2 s d blob,
        ops.binarize_image_via_otsu_threshold img1 255 = .ok b1 →
        ops.binarize_image_via_otsu_threshold img2 255 = .ok b2 →
        ops.sum_two_binary_images b1 b2 (Mat.zeros b1.rows b1.cols) = .ok s →
        ops.image_dilate (bitwise_not s) 1 MORPH_RECT = .ok d →
        ops.imencode ".png" d [IMWRITE_PNG_STRATEGY_DEFAULT] = .ok blob →
        ∃ o, OverlapRegisteredImages.new ops img1 img2 = .ok o ∧
          o.getRegionOfInterest = boundingRect (findNonZero d)) := by
  constructor
  · intro o h
    obtain ⟨b1, b2, s, d, blob, h1, h2, h3, h4, _, rfl⟩ := (new_ok_iff ops img1 img2 o).mp h
    exact ⟨b1, b2, s, d, h1, h2, h3, h4, rfl⟩
  · intro b1 b2 s d blob h1 h2 h3 h4 h5
    exact ⟨_, (new_ok_iff ops img1 img2 _).mpr ⟨b1, b2, s, d, blob, h1, h2, h3, h4, h5, rfl⟩,
      rfl⟩

/-- Witness of C9 on the two sample images with the stand-in helpers: the
constructor completes and its ROI is the rectangle (0, 0, 3, 3), the bounding
rectangle of the dilated overlap of the two dark pixels at row 1, column 1. -/
theorem C9_roi_is_pipeline_witness :
    ∃ o, OverlapRegisteredImages.new sampleOps sampleImg1 sampleImg2 = .ok o ∧
      o.getRegionOfInterest = ⟨0, 0, 3, 3⟩ ∧
      ∃ b1 b2 s d,
        sampleOps.binarize_image_via_otsu_threshold sampleImg1 255 = .ok b1 ∧
        sampleOps.binarize_image_via_otsu_threshold sampleImg2 255 = .ok b2 ∧
        sampleOps.sum_two_binary_images b1 b2 (Mat.zeros b1.rows b1.cols) = .ok s ∧
        sampleOps.image_dilate (bitwise_not s) 1 MORPH_RECT = .ok d ∧
        o.getRegionOfInterest = boundingRect (findNonZero d) :=
  ⟨_, rfl, rfl, (C9_roi_is_pipeline sampleOps sampleImg1 sampleImg2).1 _ rfl⟩

theorem sampleOps_preservesSize : sampleOps.PreservesSize := by
  refine ⟨?_, ?_, ?_⟩
  · intro src maxval dst h
    simp only [sampleOps, sampleBinarize, Except.ok.injEq] at h
    subst h; exact ⟨rfl, rfl⟩
  · intro a b dst h
    simp only [sampleOps, sampleSum, Except.ok.injEq] at h
    subst h; exact ⟨rfl, rfl⟩
  · intro src size type dst h
    simp only [sampleOps, sampleDilate, Except.ok.injEq] at h
    subst h; exact ⟨rfl, rfl⟩

/-- C10: with helpers that keep the image size, for two images of width W and
height H on which the constructor completes, the rectangle
`getRegionOfInterest()` returns lies inside the canvas: x >= 0, y >= 0,
x + width <= W and y + height <= H. -/
theorem C10_roi_inside_canvas (ops : CVops) (hops : ops.PreservesSize)
    (img1 img2 : Mat) (W H : Nat)
    (h1 : img1.cols = W ∧ img1.rows = H) (_h2 : img2.cols = W ∧ img2.rows = H)
    (o : OverlapRegisteredImages)
    (hok : OverlapRegisteredImages.new ops img1 img2 = .ok o) :
    0 ≤ o.getRegionOfInterest.x ∧ 0 ≤ o.getRegionOfInterest.y ∧
      o.getRegionOfInterest.x + o.getRegionOfInterest.width ≤ W ∧
      o.getRegionOfInterest.y + o.getRegionOfInterest.height ≤ H := by
  obtain ⟨b1, b2, s, d, blob, e1, _, e3, e4, _, rfl⟩ := (new_ok_iff ops img1 img2 o).mp hok
  obtain ⟨hbin, hsum, hdil⟩ := hops
  have s1 := hbin _ _ _ e1
  have s3 := hsum _ _ _ e3
  have s4 := hdil _ _ _ _ e4
  have hrows : d.rows = H := by
    rw [s4.1]; simp only [bitwise_not]; rw [s3.1, s1.1, h1.2]
  have hcols : d.cols = W := by
    rw [s4.2]; simp only [bitwise_not]; rw [s3.2, s1.2, h1.1]
  simp only [OverlapRegisteredImages.getRegionOfInterest]
  apply boundingRect_within _ _ _ (Int.ofNat_nonneg W) (Int.ofNat_nonneg H)
  intro p hp
  have := mem_findNonZero d p hp
  rw [hrows, hcols] at this
  exact this

/-- Witness of C10 on the two 5 x 4 sample images with the stand-in helpers. -/
theorem C10_roi_inside_canvas_witness :
    sampleOps.PreservesSize ∧
      (sampleImg1.cols = 5 ∧ sampleImg1.rows = 4) ∧ (sampleImg2.cols = 5 ∧ sampleImg2.rows = 4) ∧
      OverlapRegisteredImages.new sampleOps sampleImg1 sampleImg2
        = .ok ⟨⟨0, 0, 3, 3⟩,
            [255, 255, 255, 0, 0, 255, 255, 255, 0, 0, 255, 255, 255, 0, 0, 0, 0, 0, 0, 0],
            ⟨0, 1⟩⟩ ∧
      (0 : Int) ≤ (Rect.mk 0 0 3 3).x ∧ (0 : Int) ≤ (Rect.mk 0 0 3 3).y ∧
      (Rect.mk 0 0 3 3).x + (Rect.mk 0 0 3 3).width ≤ ((5 : Nat) : Int) ∧
      (Rect.mk 0 0 3 3).y + (Rect.mk 0 0 3 3).height ≤ ((4 : Nat) : Int) :=
  ⟨sampleOps_preservesSize, ⟨rfl, rfl⟩, ⟨rfl, rfl⟩, rfl,
    C10_roi_inside_canvas sampleOps sampleOps_preservesSize sampleImg1 sampleImg2 5 4
      ⟨rfl, rfl⟩ ⟨rfl, rfl⟩
      ⟨⟨0, 0, 3, 3⟩,
        [255, 255, 255, 0, 0, 255, 255, 255, 0, 0, 255, 255, 255, 0, 0, 0, 0, 0, 0, 0],
        ⟨0, 1⟩⟩ rfl⟩


/-! ## Overlap ROI: the empty overlap, errors, corners and copies -/

theorem foldl_min_le_init (f : Point → Int) (l : List Point) (a : Int) :
    l.foldl (fun m q => min m (f q)) a ≤ a := by
  induction l generalizing a with
  | nil => exact le_refl a
  | cons q t ih => exact le_trans (ih (min a (f q))) (min_le_left a (f q))

theorem init_le_foldl_max (f : Point → Int) (l : List Point) (a : Int) :
    a ≤ l.foldl (fun m q => max m (f q)) a := by
  induction l generalizing a with
  | nil => exact le_refl a
  | cons q t ih => exact le_trans (le_max_left a (f q)) (ih (max a (f q)))

/-- The bounding rectangle of at least one point has positive width and height. -/
theorem boundingRect_pos (pts : List Point) (h : pts ≠ []) :
    0 < (boundingRect pts).width ∧ 0 < (boundingRect pts).height := by
  cases pts with
  | nil => exact absurd rfl h
  | cons p rest =>
    have hx1 := foldl_min_le_init (fun q => q.x) rest p.x
    have hx2 := init_le_foldl_max (fun q => q.x) rest p.x
    have hy1 := foldl_min_le_init (fun q => q.y) rest p.y
    have hy2 := init_le_foldl_max (fun q => q.y) rest p.y
    simp only [boundingRect]
    constructor <;> linarith

/-- C11 as stated fails on two white 2 x 2 images with the stand-in helpers:
every stage completes, the dilated image has no non-zero pixel, and the
constructor completes (no Miscue) with the rectangle (0, 0, 0, 0), whose
width and height are not positive. -/
theorem C11_empty_overlap_completes_counterexample :
    ∃ b1 b2 s d,
      sampleOps.binarize_image_via_otsu_threshold sampleWhite 255 = .ok b1 ∧
      sampleOps.binarize_image_via_otsu_threshold sampleWhite 255 = .ok b2 ∧
      sampleOps.sum_two_binary_images b1 b2 (Mat.zeros b1.rows b1.cols) = .ok s ∧
      sampleOps.image_dilate (bitwise_not s) 1 MORPH_RECT = .ok d ∧
      findNonZero d = [] ∧
      OverlapRegisteredImages.new sampleOps sampleWhite sampleWhite
        = .ok ⟨⟨0, 0, 0, 0⟩, [0, 0, 0, 0], ⟨0, 1⟩⟩ ∧
      ¬ (0 < (OverlapRegisteredImages.mk ⟨0, 0, 0, 0⟩ [0, 0, 0, 0]
          ⟨0, 1⟩).getRegionOfInterest.width) :=
  ⟨_, _, _, _, rfl, rfl, rfl, rfl, rfl, rfl, by decide⟩

/-- C11, amended: when the stages complete, the constructor completes; if the
dilated overlap image has no non-zero pixel its ROI is the rectangle
(0, 0, 0, 0), and if the dilated image has a non-zero pixel the ROI has
width > 0 and height > 0. -/
theorem C11_empty_overlap_gives_zero_rect (ops : CVops) (img1 img2 b1 b2 s d : Mat)
    (blob : List Nat)
    (h1 : ops.binarize_image_via_otsu_threshold img1 255 = .ok b1)
    (h2 : ops.binarize_image_via_otsu_threshold img2 255 = .ok b2)
    (h3 : ops.sum_two_binary_images b1 b2 (Mat.zeros b1.rows b1.cols) = .ok s)
    (h4 : ops.image_dilate (bitwise_not s) 1 MORPH_RECT = .ok d)
    (h5 : ops.imencode ".png" d [IMWRITE_PNG_STRATEGY_DEFAULT] = .ok blob) :
    ∃ o, OverlapRegisteredImages.new ops img1 img2 = .ok o ∧
      (findNonZero d = [] → o.getRegionOfInterest = ⟨0, 0, 0, 0⟩) ∧
      (findNonZero d ≠ [] →
        0 < o.getRegionOfInterest.width ∧ 0 < o.getRegionOfInterest.height) := by
  refine ⟨_, (new_ok_iff ops img1 img2 _).mpr ⟨b1, b2, s, d, blob, h1, h2, h3, h4, h5, rfl⟩,
    ?_, ?_⟩
  · intro h
    simp only [OverlapRegisteredImages.getRegionOfInterest, h, boundingRect]
  · intro h
    exact boundingRect_pos _ h

/-- Witness of C11 (amended) on the two white 2 x 2 images with the stand-in
helpers. -/
theorem C11_empty_overlap_gives_zero_rect_witness :
    ∃ o, OverlapRegisteredImages.new sampleOps sampleWhite sampleWhite = .ok o ∧
      o.getRegionOfInterest = ⟨0, 0, 0, 0⟩ := by
  obtain ⟨o, ho, hz, _⟩ := C11_empty_overlap_gives_zero_rect sampleOps sampleWhite sampleWhite
    _ _ _ _ [0, 0, 0, 0] rfl rfl rfl rfl rfl
  exact ⟨o, ho, hz rfl⟩

/-- With OpenCV calls that do not throw, the constructor with fallible calls
is the constructor `OverlapRegisteredImages.new`. -/
theorem newWith_nonThrowing (ops : CVops) (img1 img2 : Mat) :
    OverlapRegisteredImages.newWith CvCalls.nonThrowing ops img1 img2
      = OverlapRegisteredImages.new ops img1 img2 := by
  simp only [OverlapRegisteredImages.newWith, OverlapRegisteredImages.new,
    CvCalls.nonThrowing]

/-- A primitive that throws makes the constructor throw the Miscue with the
fixed text in front of the message of the `cv::Exception`. -/
theorem newWith_error_of_stage (cv : CvCalls) (ops : CVops) (img1 img2 : Mat)
    (ex : CvException) (h : OverlapRegisteredImages.StageThrows cv ops img1 img2 ex) :
    OverlapRegisteredImages.newWith cv ops img1 img2
      = .error ⟨"OverlapRegisteredImages, cannot calc image-crop ROI: " ++ ex.what⟩ := by
  rcases h with h1 | ⟨b1, h1, h2⟩ | ⟨b1, b2, h1, h2, h3⟩ | ⟨b1, b2, s, h1, h2, h3, h4⟩ |
    ⟨b1, b2, s, inv, h1, h2, h3, h4, h5⟩ | ⟨b1, b2, s, inv, d, h1, h2, h3, h4, h5, h6⟩ |
    ⟨b1, b2, s, inv, d, blob, h1, h2, h3, h4, h5, h6, h7⟩ |
    ⟨b1, b2, s, inv, d, blob, pts, h1, h2, h3, h4, h5, h6, h7, h8⟩
  · simp only [OverlapRegisteredImages.newWith, _max_BINARY_value, h1]
  · simp only [OverlapRegisteredImages.newWith, _max_BINARY_value, h1, h2]
  · simp only [OverlapRegisteredImages.newWith, _max_BINARY_value, h1, h2, h3]
  · simp only [OverlapRegisteredImages.newWith, _max_BINARY_value, h1, h2, h3, h4]
  · simp only [OverlapRegisteredImages.newWith, _max_BINARY_value, h1, h2, h3, h4, h5]
  · simp only [OverlapRegisteredImages.newWith, _max_BINARY_value, h1, h2, h3, h4, h5, h6]
  · simp only [OverlapRegisteredImages.newWith, _max_BINARY_value, h1, h2, h3, h4, h5, h6, h7]
  · simp only [OverlapRegisteredImages.newWith, _max_BINARY_value, h1, h2, h3, h4, h5, h6, h7,
      h8]

/-- The constructor throws a Miscue only when one of its primitives throws,
and the message is the fixed text followed by the message of that
`cv::Exception`. -/
theorem newWith_error_only (cv : CvCalls) (ops : CVops) (img1 img2 : Mat) (e : Miscue)
    (h : OverlapRegisteredImages.newWith cv ops img1 img2 = .error e) :
    ∃ ex, OverlapRegisteredImages.StageThrows cv ops img1 img2 ex ∧
      e = ⟨"OverlapRegisteredImages, cannot calc image-crop ROI: " ++ ex.what⟩ := by
  simp only [OverlapRegisteredImages.newWith, _max_BINARY_value] at h
  cases h1 : ops.binarize_image_via_otsu_threshold img1 255 with
  | error ex =>
    simp only [h1, Except.error.injEq] at h
    exact ⟨ex, Or.inl h1, h.symm⟩
  | ok b1 =>
  cases h2 : ops.binarize_image_via_otsu_threshold img2 255 with
  | error ex =>
    simp only [h1, h2, Except.error.injEq] at h
    exact ⟨ex, Or.inr (Or.inl ⟨b1, h1, h2⟩), h.symm⟩
  | ok b2 =>
  cases h3 : ops.sum_two_binary_images b1 b2 (Mat.zeros b1.rows b1.cols) with
  | error ex =>
    simp only [h1, h2, h3, Except.error.injEq] at h
    exact ⟨ex, Or.inr (Or.inr (Or.inl ⟨b1, b2, h1, h2, h3⟩)), h.symm⟩
  | ok s =>
  cases h4 : cv.bitwise_not s with
  | error ex =>
    simp only [h1, h2, h3, h4, Except.error.injEq] at h
    exact ⟨ex, Or.inr (Or.inr (Or.inr (Or.inl ⟨b1, b2, s, h1, h2, h3, h4⟩))), h.symm⟩
  | ok inv =>
  cases h5 : ops.image_dilate inv 1 MORPH_RECT with
  | error ex =>
    simp only [h1, h2, h3, h4, h5, Except.error.injEq] at h
    exact ⟨ex, Or.inr (Or.inr (Or.inr (Or.inr (Or.inl ⟨b1, b2, s, inv, h1, h2, h3, h4, h5⟩)))),
      h.symm⟩
  | ok d =>
  cases h6 : ops.imencode ".png" d [IMWRITE_PNG_STRATEGY_DEFAULT] with
  | error ex =>
    simp only [h1, h2, h3, h4, h5, h6, Except.error.injEq] at h
    exact ⟨ex, Or.inr (Or.inr (Or.inr (Or.inr (Or.inr (Or.inl
      ⟨b1, b2, s, inv, d, h1, h2, h3, h4, h5, h6⟩))))), h.symm⟩
  | ok blob =>
  cases h7 : cv.findNonZero d with
  | error ex =>
    simp only [h1, h2, h3, h4, h5, h6, h7, Except.error.injEq] at h
    exact ⟨ex, Or.inr (Or.inr (Or.inr (Or.inr (Or.inr (Or.inr (Or.inl
      ⟨b1, b2, s, inv, d, blob, h1, h2, h3, h4, h5, h6, h7⟩)))))), h.symm⟩
  | ok pts =>
  cases h8 : cv.boundingRect pts with
  | error ex =>
    simp only [h1, h2, h3, h4, h5, h6, h7, h8, Except.error.injEq] at h
    exact ⟨ex, Or.inr (Or.inr (Or.inr (Or.inr (Or.inr (Or.inr (Or.inr
      ⟨b1, b2, s, inv, d, blob, pts, h1, h2, h3, h4, h5, h6, h7, h8⟩)))))), h.symm⟩
  | ok r =>
    simp only [h1, h2, h3, h4, h5, h6, h7, h8, reduceCtorEq] at h

/-! ## Decimal strings -/

theorem digitChar_isDigit (k : Nat) (h : k < 10) : (Nat.digitChar k).isDigit = true := by
  interval_cases k <;> decide

theorem digitChar_value (k : Nat) (h : k < 10) : (Nat.digitChar k).toNat - 48 = k := by
  interval_cases k <;> decide

theorem toDigitsCore_isDigit (fuel n : Nat) (ds : List Char)
    (hds : ∀ c ∈ ds, c.isDigit = true) :
    ∀ c ∈ Nat.toDigitsCore 10 fuel n ds, c.isDigit = true := by
  induction fuel generalizing n ds with
  | zero => simpa [Nat.toDigitsCore] using hds
  | succ fuel ih =>
    have hd : ∀ c ∈ Nat.digitChar (n % 10) :: ds, c.isDigit = true := by
      intro c hc
      rcases List.mem_cons.mp hc with rfl | hc
      · exact digitChar_isDigit _ (Nat.mod_lt _ (by decide))
      · exact hds c hc
    rw [Nat.toDigitsCore]
    split_ifs with h0
    · exact hd
    · exact ih _ _ hd

theorem toDigitsCore_readBack (fuel n : Nat) (ds : List Char) (h : n < fuel) :
    (Nat.toDigitsCore 10 fuel n ds).foldl (fun acc c => 10 * acc + (c.toNat - 48)) 0
      = ds.foldl (fun acc c => 10 * acc + (c.toNat - 48)) n := by
  induction fuel generalizing n ds with
  | zero => omega
  | succ fuel ih =>
    rw [Nat.toDigitsCore]
    split_ifs with h0
    · simp only [List.foldl_cons, Nat.mul_zero, Nat.zero_add]
      rw [digitChar_value _ (Nat.mod_lt _ (by decide))]
      congr 1
      omega
    · rw [ih (n / 10) _ (by omega)]
      simp only [List.foldl_cons]
      rw [digitChar_value _ (Nat.mod_lt _ (by decide))]
      congr 1
      omega

theorem nat_toString_data (n : Nat) : (toString n).data = Nat.toDigits 10 n := rfl

theorem nat_toString_inj (a b : Nat) (h : toString a = toString b) : a = b := by
  have hd : Nat.toDigits 10 a = Nat.toDigits 10 b := by
    rw [← nat_toString_data, ← nat_toString_data, h]
  have ha := toDigitsCore_readBack (a + 1) a [] (by omega)
  have hb := toDigitsCore_readBack (b + 1) b [] (by omega)
  simp only [List.foldl_nil] at ha hb
  rw [← ha, ← hb]
  exact congrArg _ hd

theorem nat_toString_isDigit (n : Nat) : ∀ c ∈ (toString n).data, c.isDigit = true := by
  rw [nat_toString_data]
  exact toDigitsCore_isDigit _ _ _ (by simp)

theorem int_toString_ofNat (n : Nat) : toString (Int.ofNat n) = toString n := rfl

theorem int_toString_negSucc (n : Nat) :
    toString (Int.negSucc n) = "-" ++ toString (n + 1) := rfl

/-- The decimal string of an `int` determines the `int`. -/
theorem to_string_inj (a b : Int) (h : to_string a = to_string b) : a = b := by
  simp only [to_string] at h
  cases a with
  | ofNat m =>
    cases b with
    | ofNat k =>
      rw [int_toString_ofNat, int_toString_ofNat] at h
      rw [nat_toString_inj m k h]
    | negSucc k =>
      exfalso
      rw [int_toString_ofNat, int_toString_negSucc] at h
      have hmem : '-' ∈ (toString m).data := by
        rw [h, String.data_append]
        exact List.mem_append_left _ (by decide)
      have := nat_toString_isDigit m _ hmem
      exact absurd this (by decide)
  | negSucc m =>
    cases b with
    | ofNat k =>
      exfalso
      rw [int_toString_ofNat, int_toString_negSucc] at h
      have hmem : '-' ∈ (toString k).data := by
        rw [← h, String.data_append]
        exact List.mem_append_left _ (by decide)
      have := nat_toString_isDigit k _ hmem
      exact absurd this (by decide)
    | negSucc k =>
      rw [int_toString_negSucc, int_toString_negSucc] at h
      have hd := congrArg String.data h
      rw [String.data_append, String.data_append] at hd
      have h2 : toString (m + 1) = toString (k + 1) :=
        String.ext (List.append_cancel_left hd)
      have := nat_toString_inj _ _ h2
      have : m = k := by omega
      rw [this]

theorem to_string_chars (v : Int) :
    ∀ c ∈ (to_string v).data, c.isDigit = true ∨ c = '-' := by
  intro c hc
  simp only [to_string] at hc
  cases v with
  | ofNat m =>
    rw [int_toString_ofNat] at hc
    exact Or.inl (nat_toString_isDigit m c hc)
  | negSucc m =>
    rw [int_toString_negSucc, String.data_append] at hc
    rcases List.mem_append.mp hc with h | h
    · have : c = '-' := by simpa using h
      exact Or.inr this
    · exact Or.inl (nat_toString_isDigit _ c h)

theorem pair_string_chars (a b : Int) :
    ∀ c ∈ (to_string a ++ "," ++ to_string b).data,
      c.isDigit = true ∨ c = '-' ∨ c = ',' := by
  intro c hc
  rw [String.data_append, String.data_append] at hc
  rcases List.mem_append.mp hc with h | h
  · rcases List.mem_append.mp h with h | h
    · rcases to_string_chars a c h with h | h
      · exact Or.inl h
      · exact Or.inr (Or.inl h)
    · have : c = ',' := by simpa using h
      exact Or.inr (Or.inr this)
  · rcases to_string_chars b c h with h | h
    · exact Or.inl h
    · exact Or.inr (Or.inl h)

/-- C12: a `cv::Exception` with message m thrown by any raster primitive of
the constructor (either binarization, the sum, the inversion, the dilation,
the PNG encoding, the non-zero extraction or the bounding box) makes the
constructor throw the one Miscue whose message is
"OverlapRegisteredImages, cannot calc image-crop ROI: " followed by m,
whichever primitive it was; and the constructor throws a Miscue only then.
With OpenCV calls that do not throw, this constructor is
`OverlapRegisteredImages.new`. -/
theorem C12_miscue_wraps_stage_error (cv : CvCalls) (ops : CVops) (img1 img2 : Mat) :
    (∀ ex, OverlapRegisteredImages.StageThrows cv ops img1 img2 ex →
      OverlapRegisteredImages.newWith cv ops img1 img2
        = .error ⟨"OverlapRegisteredImages, cannot calc image-crop ROI: " ++ ex.what⟩) ∧
    (∀ e, OverlapRegisteredImages.newWith cv ops img1 img2 = .error e →
      ∃ ex, OverlapRegisteredImages.StageThrows cv ops img1 img2 ex ∧
        e.msg = "OverlapRegisteredImages, cannot calc image-crop ROI: " ++ ex.what) ∧
    OverlapRegisteredImages.newWith CvCalls.nonThrowing ops img1 img2
      = OverlapRegisteredImages.new ops img1 img2 := by
  refine ⟨?_, ?_, newWith_nonThrowing ops img1 img2⟩
  · intro ex h
    exact newWith_error_of_stage cv ops img1 img2 ex h
  · intro e h
    obtain ⟨ex, hst, rfl⟩ := newWith_error_only cv ops img1 img2 e h
    exact ⟨ex, hst, rfl⟩

/-- Witness of C12 on the two sample images and the stand-in helpers, with an
OpenCV `findNonZero` that throws "findNonZero: assertion failed": the six
calls before it complete and the constructor throws the Miscue with the fixed
text in front of that message. -/
theorem C12_miscue_wraps_stage_error_witness :
    OverlapRegisteredImages.StageThrows sampleCvFindThrows sampleOps sampleImg1 sampleImg2
        ⟨"findNonZero: assertion failed"⟩ ∧
      OverlapRegisteredImages.newWith sampleCvFindThrows sampleOps sampleImg1 sampleImg2
        = .error
          ⟨"OverlapRegisteredImages, cannot calc image-crop ROI: findNonZero: assertion failed"⟩ :=
  have h : OverlapRegisteredImages.StageThrows sampleCvFindThrows sampleOps sampleImg1
      sampleImg2 ⟨"findNonZero: assertion failed"⟩ :=
    Or.inr (Or.inr (Or.inr (Or.inr (Or.inr (Or.inr (Or.inl
      ⟨_, _, _, _, _, _, rfl, rfl, rfl, rfl, rfl, rfl, rfl⟩))))))
  ⟨h, (C12_miscue_wraps_stage_error sampleCvFindThrows sampleOps sampleImg1 sampleImg2).1 _ h⟩

/-- The error paths of the other stages, run on concrete inputs: an inversion
that throws, a bounding box that throws, and a PNG encoding that refuses two
images without pixels each give the Miscue with the fixed text in front of
the message of the stage. -/
theorem newWith_error_paths :
    OverlapRegisteredImages.newWith sampleCvNotThrows sampleOps sampleImg1 sampleImg2
        = .error
          ⟨"OverlapRegisteredImages, cannot calc image-crop ROI: bitwise_not: assertion failed"⟩ ∧
      OverlapRegisteredImages.newWith sampleCvRectThrows sampleOps sampleImg1 sampleImg2
        = .error
          ⟨"OverlapRegisteredImages, cannot calc image-crop ROI: boundingRect: assertion failed"⟩ ∧
      OverlapRegisteredImages.newWith CvCalls.nonThrowing sampleOps sampleEmpty sampleEmpty
        = .error ⟨"OverlapRegisteredImages, cannot calc image-crop ROI: imencode: empty image"⟩ :=
  ⟨rfl, rfl, rfl⟩

/-- C18: the corners of the ROI rectangle (x, y, width, height) are returned
as exactly two strings, first "x,y" for the top-left corner and then
"(x+width),(y+height)" for the bottom-right corner, each the two decimal
numbers with one comma between them and no other character (no blank, no
parenthesis). -/
theorem C18_roi_corner_strings (o : OverlapRegisteredImages) :
    o.getRegionOfInterestCorners =
      [to_string o._minRect.x ++ "," ++ to_string o._minRect.y,
       to_string (o._minRect.x + o._minRect.width) ++ "," ++
         to_string (o._minRect.y + o._minRect.height)] ∧
    (∀ s ∈ o.getRegionOfInterestCorners, ∀ c ∈ s.data,
      c.isDigit = true ∨ c = '-' ∨ c = ',') ∧
    (OverlapRegisteredImages.mk ⟨3, 4, 10, 20⟩ [] ⟨0, 1⟩).getRegionOfInterestCorners
      = ["3,4", "13,24"] := by
  have h : o.getRegionOfInterestCorners =
      [to_string o._minRect.x ++ "," ++ to_string o._minRect.y,
       to_string (o._minRect.x + o._minRect.width) ++ "," ++
         to_string (o._minRect.y + o._minRect.height)] := rfl
  refine ⟨h, ?_, by decide⟩
  intro s hs
  rw [h] at hs
  rcases List.mem_cons.mp hs with rfl | hs
  · exact pair_string_chars _ _
  · rcases List.mem_cons.mp hs with rfl | hs
    · exact pair_string_chars _ _
    · exact absurd hs (List.not_mem_nil s)

/-- The copy constructor leaves the rectangle and the blob of the new object
at their defaults and takes over the kernel parameters. -/
theorem newCopy_members (o : OverlapRegisteredImages) :
    (OverlapRegisteredImages.newCopy o).getRegionOfInterest = ⟨0, 0, 0, 0⟩ ∧
      (OverlapRegisteredImages.newCopy o).getPngBlob = [] ∧
      (OverlapRegisteredImages.newCopy o).getStructuringElementParams
        = o.getStructuringElementParams :=
  ⟨rfl, rfl, rfl⟩

/-- C19, evaluated on the object the full constructor builds from the two
sample images (ROI (0, 0, 3, 3), a blob of 20 bytes): its copy has the ROI
(0, 0, 0, 0) and an empty blob, so neither equals that of the original; only
the structuring-element parameters are those of the original. -/
theorem C19_copy_drops_roi_and_blob :
    OverlapRegisteredImages.new sampleOps sampleImg1 sampleImg2
      = .ok ⟨⟨0, 0, 3, 3⟩,
          [255, 255, 255, 0, 0, 255, 255, 255, 0, 0, 255, 255, 255, 0, 0, 0, 0, 0, 0, 0],
          ⟨0, 1⟩⟩ ∧
    (OverlapRegisteredImages.newCopy ⟨⟨0, 0, 3, 3⟩,
        [255, 255, 255, 0, 0, 255, 255, 255, 0, 0, 255, 255, 255, 0, 0, 0, 0, 0, 0, 0],
        ⟨0, 1⟩⟩).getRegionOfInterest = ⟨0, 0, 0, 0⟩ ∧
    (OverlapRegisteredImages.newCopy ⟨⟨0, 0, 3, 3⟩,
        [255, 255, 255, 0, 0, 255, 255, 255, 0, 0, 255, 255, 255, 0, 0, 0, 0, 0, 0, 0],
        ⟨0, 1⟩⟩).getRegionOfInterest
      ≠ (OverlapRegisteredImages.mk ⟨0, 0, 3, 3⟩
        [255, 255, 255, 0, 0, 255, 255, 255, 0, 0, 255, 255, 255, 0, 0, 0, 0, 0, 0, 0]
        ⟨0, 1⟩).getRegionOfInterest ∧
    (OverlapRegisteredImages.newCopy ⟨⟨0, 0, 3, 3⟩,
        [255, 255, 255, 0, 0, 255, 255, 255, 0, 0, 255, 255, 255, 0, 0, 0, 0, 0, 0, 0],
        ⟨0, 1⟩⟩).getPngBlob = [] ∧
    (OverlapRegisteredImages.newCopy ⟨⟨0, 0, 3, 3⟩,
        [255, 255, 255, 0, 0, 255, 255, 255, 0, 0, 255, 255, 255, 0, 0, 0, 0, 0, 0, 0],
        ⟨0, 1⟩⟩).getPngBlob
      ≠ (OverlapRegisteredImages.mk ⟨0, 0, 3, 3⟩
        [255, 255, 255, 0, 0, 255, 255, 255, 0, 0, 255, 255, 255, 0, 0, 0, 0, 0, 0, 0]
        ⟨0, 1⟩).getPngBlob ∧
    (OverlapRegisteredImages.newCopy ⟨⟨0, 0, 3, 3⟩,
        [255, 255, 255, 0, 0, 255, 255, 255, 0, 0, 255, 255, 255, 0, 0, 0, 0, 0, 0, 0],
        ⟨0, 1⟩⟩).getStructuringElementParams
      = (OverlapRegisteredImages.mk ⟨0, 0, 3, 3⟩
        [255, 255, 255, 0, 0, 255, 255, 255, 0, 0, 255, 255, 255, 0, 0, 0, 0, 0, 0, 0]
        ⟨0, 1⟩).getStructuringElementParams :=
  ⟨rfl, rfl, by decide, rfl, by decide, rfl⟩

/-! ## Strings of the point pair and of the metadata -/

theorem static_cast_int_intCast (n : ℤ) : static_cast_int (n : ℝ) = n := by
  simp [static_cast_int]

/-- C20, evaluated at the moving point (1, 2) and the fixed point (3, 4):
`to_s()` returns "(1, 2) X (3, 4)", with a blank after each comma, which is
not the string "(1,2) X (3,4)" of the form its comment gives. -/
theorem C20_to_s_has_blank_after_comma :
    (CorrespondingPointsPair.mk ⟨1, 2⟩ ⟨3, 4⟩).to_s = "(1, 2) X (3, 4)" ∧
      (CorrespondingPointsPair.mk ⟨1, 2⟩ ⟨3, 4⟩).to_s ≠ "(1,2) X (3,4)" := by
  have h : (CorrespondingPointsPair.mk ⟨1, 2⟩ ⟨3, 4⟩).to_s = "(1, 2) X (3, 4)" := by
    have e1 := static_cast_int_intCast 1
    have e2 := static_cast_int_intCast 2
    have e3 := static_cast_int_intCast 3
    have e4 := static_cast_int_intCast 4
    simp only [Int.cast_one, Int.cast_ofNat] at e1 e2 e3 e4
    simp only [CorrespondingPointsPair.to_s, e1, e2, e3, e4]
    decide
  refine ⟨h, ?_⟩
  rw [h]
  decide

/-- C15: whatever the vector of the caller holds, `centerOfRotation` leaves it
equal to the two-element vector [x, y] of the centre of rotation, and leaves
the metadata as it was. -/
theorem C15_centerOfRotation_vector (md : Registrator.RegistrationMetadata)
    (center : List Int) :
    (md.centerOfRotation center).2 = [md.centerRot.x, md.centerRot.y] ∧
      (md.centerOfRotation center).1 = md :=
  ⟨rfl, rfl⟩

/-- C17: `getScaleFactorDirection()` returns "img1/img2" exactly for the
direction value 1 (img1_to_img2), "img2/img1" exactly for the value 2
(img2_to_img1) and "undefined" exactly for every other value; for the two
declared values the result is one of "img1/img2", "img2/img1". -/
theorem C17_scaleFactorDirection_strings (sf : Registrator.ScaleFactor) :
    Registrator.img1_to_img2 = 1 ∧ Registrator.img2_to_img1 = 2 ∧
    (sf.getScaleFactorDirection = "img1/img2" ↔ sf.direction = 1) ∧
    (sf.getScaleFactorDirection = "img2/img1" ↔ sf.direction = 2) ∧
    (sf.getScaleFactorDirection = "undefined" ↔ (sf.direction ≠ 1 ∧ sf.direction ≠ 2)) ∧
    ((sf.direction = 1 ∨ sf.direction = 2) →
      (sf.getScaleFactorDirection = "img1/img2" ∨
        sf.getScaleFactorDirection = "img2/img1")) := by
  have k1 : Registrator.img1_to_img2 = 1 := rfl
  have k2 : Registrator.img2_to_img1 = 2 := rfl
  have n12 : ("img1/img2" : String) ≠ "img2/img1" := by decide
  have n1u : ("img1/img2" : String) ≠ "undefined" := by decide
  have n2u : ("img2/img1" : String) ≠ "undefined" := by decide
  refine ⟨k1, k2, ?_⟩
  simp only [Registrator.ScaleFactor.getScaleFactorDirection, k1, k2]
  by_cases h1 : sf.direction = 1
  · have h2 : sf.direction ≠ 2 := by rw [h1]; decide
    simp [h1, n12, n1u]
  · by_cases h2 : sf.direction = 2
    · simp [h1, h2, n12.symm, n2u]
    · simp [h1, h2, n1u.symm, n2u.symm]

/-- Witness of C17 for the direction img2_to_img1. -/
theorem C17_scaleFactorDirection_strings_witness :
    (Registrator.ScaleFactor.mk 1 2).direction = 2 ∧
      (Registrator.ScaleFactor.mk 1 2).getScaleFactorDirection = "img2/img1" :=
  ⟨rfl, (C17_scaleFactorDirection_strings ⟨1, 2⟩).2.2.2.1.mpr rfl⟩

/-! ## Control-point validation -/

theorem segmentLength_ne_zero_of_ne (p q : Registrator.Point) (h : p ≠ q) :
    (PointsOnImage.new p.toPoint2f q.toPoint2f).segmentLength ≠ 0 := by
  rw [new_segmentLength]
  apply ne_of_gt
  apply sqrt_pos_of_ne
  simp only [Registrator.Point.toPoint2f]
  by_contra hc
  push_neg at hc
  apply h
  have hx : (q.x : ℝ) = p.x := by linarith [hc.1]
  have hy : (q.y : ℝ) = p.y := by linarith [hc.2]
  have hx1 : q.x = p.x := by exact_mod_cast hx
  have hy1 : q.y = p.y := by exact_mod_cast hy
  cases p; cases q
  simp only [Registrator.Point.mk.injEq]
  exact ⟨hx1.symm, hy1.symm⟩

/-- C13: when the two control points of the moving image, or the two of the
fixed image, are identical, the registration ends with a Miscue and builds no
same-image pair; when it does build the two pairs, the points of each pair
differ and both segment lengths, the divisors in the constructor, are not
zero; and it builds them whenever the points of each image differ. -/
theorem C13_coincident_points_rejected (m1 m2 f1 f2 : Registrator.Point) :
    ((m1 = m2 ∨ f1 = f2) →
      ∃ e, Registrator.buildPointsOnImages m1 m2 f1 f2 = .error e) ∧
    (∀ a b, Registrator.buildPointsOnImages m1 m2 f1 f2 = .ok (a, b) →
      m1 ≠ m2 ∧ f1 ≠ f2 ∧
      a = PointsOnImage.new m1.toPoint2f m2.toPoint2f ∧
      b = PointsOnImage.new f1.toPoint2f f2.toPoint2f ∧
      a.segmentLength ≠ 0 ∧ b.segmentLength ≠ 0) ∧
    ((m1 ≠ m2 ∧ f1 ≠ f2) →
      ∃ a b, Registrator.buildPointsOnImages m1 m2 f1 f2 = .ok (a, b)) := by
  refine ⟨?_, ?_, ?_⟩
  · intro h
    exact ⟨_, by unfold Registrator.buildPointsOnImages; rw [if_pos h]⟩
  · intro a b h
    by_cases hc : m1 = m2 ∨ f1 = f2
    · simp only [Registrator.buildPointsOnImages, if_pos hc, reduceCtorEq] at h
    · simp only [Registrator.buildPointsOnImages, if_neg hc, Except.ok.injEq,
        Prod.mk.injEq] at h
      push_neg at hc
      obtain ⟨ha, hb⟩ := h
      refine ⟨hc.1, hc.2, ha.symm, hb.symm, ?_, ?_⟩
      · rw [← ha]; exact segmentLength_ne_zero_of_ne m1 m2 hc.1
      · rw [← hb]; exact segmentLength_ne_zero_of_ne f1 f2 hc.2
  · intro h
    have hc : ¬ (m1 = m2 ∨ f1 = f2) := by
      push_neg; exact h
    exact ⟨_, _, by unfold Registrator.buildPointsOnImages; rw [if_neg hc]⟩

/-- Witness of C13 with the moving points (10, 10) and (10, 10) and the fixed
points (20, 20) and (20, 120). -/
theorem C13_coincident_points_rejected_witness :
    ((⟨10, 10⟩ : Registrator.Point) = ⟨10, 10⟩ ∨
        (⟨20, 20⟩ : Registrator.Point) = ⟨20, 120⟩) ∧
      ∃ e, Registrator.buildPointsOnImages ⟨10, 10⟩ ⟨10, 10⟩ ⟨20, 20⟩ ⟨20, 120⟩ = .error e :=
  ⟨Or.inl rfl,
    (C13_coincident_points_rejected ⟨10, 10⟩ ⟨10, 10⟩ ⟨20, 20⟩ ⟨20, 120⟩).1 (Or.inl rfl)⟩

/-! ## Control points of the metadata -/

theorem find_assign_same (m : Registrator.PointMap) (key : String) (p : Registrator.Point) :
    (m.assign key p).find key = some p := by
  induction m with
  | nil => simp [Registrator.PointMap.assign, Registrator.PointMap.find]
  | cons e rest ih =>
    obtain ⟨k, v⟩ := e
    by_cases h : k = key
    · simp [Registrator.PointMap.assign, Registrator.PointMap.find, h]
    · simp only [Registrator.PointMap.assign, if_neg h, Registrator.PointMap.find]
      exact ih

theorem find_assign_other (m : Registrator.PointMap) (key other : String)
    (p : Registrator.Point) (h : other ≠ key) :
    (m.assign key p).find other = m.find other := by
  induction m with
  | nil =>
    simp only [Registrator.PointMap.assign, Registrator.PointMap.find, if_neg (Ne.symm h)]
  | cons e rest ih =>
    obtain ⟨k, v⟩ := e
    by_cases hk : k = key
    · have hko : k ≠ other := fun e => h (e.symm.trans hk)
      simp only [Registrator.PointMap.assign, if_pos hk, Registrator.PointMap.find, if_neg hko]
    · simp only [Registrator.PointMap.assign, if_neg hk, Registrator.PointMap.find, ih]

theorem index_fst (m : Registrator.PointMap) (key : String) :
    (m.index key).1 = (m.find key).getD ⟨0, 0⟩ := by
  unfold Registrator.PointMap.index
  cases m.find key <;> rfl

theorem key_inj (n m : Int) (h : "pt" ++ to_string n = "pt" ++ to_string m) : n = m := by
  have hd := congrArg String.data h
  rw [String.data_append, String.data_append] at hd
  exact to_string_inj n m (String.ext (List.append_cancel_left hd))

theorem getControlPoint_fst (cp : Registrator.ControlPoints) (n : Int) :
    (cp.getControlPoint n).1
      = ((cp.point.find ("pt" ++ to_string n)).getD ⟨0, 0⟩).to_s := by
  simp only [Registrator.ControlPoints.getControlPoint, index_fst]

/-- C16: after `setControlPoint(n, x, y)`, `getControlPoint(n)` returns the
decimal x, a comma and the decimal y; a later `setControlPoint(n, x2, y2)`
replaces the point; and `setControlPoint(n, ...)` does not change what
`getControlPoint(m)` returns for any other point number m. -/
theorem C16_control_point_set_get (cp : Registrator.ControlPoints) (n x y x2 y2 : Int) :
    ((cp.setControlPoint n x y).getControlPoint n).1 = to_string x ++ "," ++ to_string y ∧
    (((cp.setControlPoint n x y).setControlPoint n x2 y2).getControlPoint n).1
      = to_string x2 ++ "," ++ to_string y2 ∧
    (∀ m, m ≠ n →
      ((cp.setControlPoint n x y).getControlPoint m).1 = (cp.getControlPoint m).1) := by
  refine ⟨?_, ?_, ?_⟩
  · rw [getControlPoint_fst]
    simp only [Registrator.ControlPoints.setControlPoint, find_assign_same]
    rfl
  · rw [getControlPoint_fst]
    simp only [Registrator.ControlPoints.setControlPoint, find_assign_same]
    rfl
  · intro m hm
    rw [getControlPoint_fst, getControlPoint_fst]
    have hk : "pt" ++ to_string m ≠ "pt" ++ to_string n := fun e => hm (key_inj m n e)
    simp only [Registrator.ControlPoints.setControlPoint, find_assign_other _ _ _ _ hk]

/-- Witness of C16 on an empty map: point 1 set to (123, -456) reads
"123,-456", and reading point 2 gives the same before and after. -/
theorem C16_control_point_set_get_witness :
    (((Registrator.ControlPoints.mk [] ⟨0, 0⟩).setControlPoint 1 123 (-456)).getControlPoint
        1).1 = "123,-456" ∧
      ((2 : Int) ≠ 1 ∧
        (((Registrator.ControlPoints.mk [] ⟨0, 0⟩).setControlPoint 1 123 (-456)).getControlPoint
          2).1 = ((Registrator.ControlPoints.mk [] ⟨0, 0⟩).getControlPoint 2).1) :=
  ⟨(C16_control_point_set_get ⟨[], ⟨0, 0⟩⟩ 1 123 (-456) 0 0).1.trans (by decide),
    by decide,
    (C16_control_point_set_get ⟨[], ⟨0, 0⟩⟩ 1 123 (-456) 0 0).2.2 2 (by decide)⟩

/-! ## Rows of the translation transform -/

theorem intercalate_go_append (s : String) (l : List String) (a b : String) :
    String.intercalate.go (a ++ b) s l = a ++ String.intercalate.go b s l := by
  induction l generalizing b with
  | nil => simp [String.intercalate.go]
  | cons x t ih =>
    simp only [String.intercalate.go]
    rw [String.append_assoc, String.append_assoc, ih, String.append_assoc]

theorem intercalate_cons_cons (s a b : String) (t : List String) :
    s.intercalate (a :: b :: t) = a ++ s ++ s.intercalate (b :: t) := by
  simp only [String.intercalate, String.intercalate.go]
  rw [intercalate_go_append]

theorem intercalate_singleton (s a : String) : s.intercalate [a] = a := by
  simp [String.intercalate, String.intercalate.go]

theorem rowLoop_spec (row : List Int) (tCols : Nat) (rest pre : List Int) (acc : String)
    (hrow : row = pre ++ rest) (hcols : tCols = row.length) :
    Registrator.rowLoop row tCols rest.length pre.length acc
      = some (acc ++ " ".intercalate (rest.map to_string)) := by
  induction rest generalizing pre acc with
  | nil => simp [Registrator.rowLoop, String.intercalate]
  | cons v rest1 ih =>
    have hget : row[pre.length]? = some v := by
      rw [hrow, List.getElem?_append_right (le_refl _)]; simp
    have hrow1 : row = (pre ++ [v]) ++ rest1 := by rw [hrow]; simp
    have hlen : (pre ++ [v]).length = pre.length + 1 := by simp
    have hT : tCols = pre.length + (rest1.length + 1) := by
      rw [hcols, hrow]; simp
    simp only [List.length_cons, Registrator.rowLoop, hget]
    rw [← hlen, ih (pre ++ [v]) _ hrow1]
    cases rest1 with
    | nil =>
      have hc : ¬ (pre.length < tCols - 1) := by
        rw [hT]; simp
      rw [if_neg hc]
      simp only [List.map_cons, List.map_nil, intercalate_singleton]
      simp [String.intercalate]
    | cons w t =>
      have hc : pre.length < tCols - 1 := by
        rw [hT]; simp
      rw [if_pos hc]
      simp only [List.map_cons, intercalate_cons_cons, String.append_assoc]

theorem rowsLoop_spec (mat : List (List Int)) (tCols : Nat) (rest pre : List (List Int))
    (v : List String) (hmat : mat = pre ++ rest) (hcols : ∀ row ∈ rest, row.length = tCols) :
    Registrator.rowsLoop mat tCols rest.length pre.length v
      = some (v ++ rest.map (fun row => " ".intercalate (row.map to_string))) := by
  induction rest generalizing pre v with
  | nil => simp [Registrator.rowsLoop]
  | cons row rest1 ih =>
    have hget : mat[pre.length]? = some row := by
      rw [hmat, List.getElem?_append_right (le_refl _)]; simp
    have hmat1 : mat = (pre ++ [row]) ++ rest1 := by rw [hmat]; simp
    have hlen : (pre ++ [row]).length = pre.length + 1 := by simp
    have hrowlen : row.length = tCols := hcols row (List.mem_cons_self row rest1)
    have hloop := rowLoop_spec row tCols row [] "" rfl hrowlen.symm
    simp only [List.length_nil] at hloop
    rw [hrowlen] at hloop
    simp only [List.length_cons, Registrator.rowsLoop, hget, hloop]
    rw [← hlen, ih (pre ++ [row]) _ hmat1
      (fun r hr => hcols r (List.mem_cons_of_mem row hr))]
    simp

/-- C14: for a translation matrix with at least two rows whose rows all have
the same length (that of row 1), `getTranslationTransform()` returns one
string per row, in row order, each the decimal numbers of the row joined by
single blanks. -/
theorem C14_translation_rows_joined (md : Registrator.RegistrationMetadata) (tCols : Nat)
    (hrows : 2 ≤ md.translMatrix.length)
    (hcols : ∀ row ∈ md.translMatrix, row.length = tCols) :
    md.getTranslationTransform
      = some (md.translMatrix.map (fun row => " ".intercalate (row.map to_string))) := by
  unfold Registrator.RegistrationMetadata.getTranslationTransform
  have h1 : 1 < md.translMatrix.length := by omega
  have hget : md.translMatrix[1]? = some (md.translMatrix[1]) := List.getElem?_eq_getElem h1
  have hlen : (md.translMatrix[1]).length = tCols := hcols _ (List.getElem_mem h1)
  simp only [hget, hlen]
  have := rowsLoop_spec md.translMatrix tCols md.translMatrix [] [] rfl hcols
  simpa using this

/-- Witness of C14 on the matrix with rows 1 0 5 and 0 1 -7. -/
theorem C14_translation_rows_joined_witness :
    (2 ≤ sampleMetadata.translMatrix.length ∧
      ∀ row ∈ sampleMetadata.translMatrix, row.length = 3) ∧
    sampleMetadata.getTranslationTransform
      = some (sampleMetadata.translMatrix.map
          (fun row => " ".intercalate (row.map to_string))) ∧
    sampleMetadata.translMatrix.map (fun row => " ".intercalate (row.map to_string))
      = ["1 0 5", "0 1 -7"] :=
  ⟨⟨by decide, by decide⟩,
    C14_translation_rows_joined sampleMetadata 3 (by decide) (by decide), by decide⟩

end NFRL
